import Mathlib

/-!
Shallow embedding of `src/src/stack_aggregator.py` (stack aggregation and
license-conflict reasoning engine) together with proofs about the claims of
the design specification.

Python dicts are modelled as association lists over `String` keys whose key
lists are duplicate-free in every value actually built by the code; lookups
take the first matching binding.  Python exceptions are modelled with
`Except PyErr`: `assertionError` stands for `AssertionError` raised by an
`assert` statement, `runtimeError` collapses the remaining exception kinds
(`TypeError`, `IndexError`, `KeyError`, `ValueError`, `AttributeError`) that
the claims never need to tell apart.
-/

namespace StackAgg

/-- JSON-like Python values flowing through the aggregator.  Python floats
only appear in this code as the integral timestamp `1496302486.0`, so numeric
values are modelled by `Int`. -/
inductive Val : Type
  | vnull
  | vbool (b : Bool)
  | vint (n : Int)
  | vstr (s : String)
  | vlist (l : List Val)
  | vdict (d : List (String × Val))
deriving Repr

mutual

/-- Decidable equality on `Val` (the `deriving` handler does not support the
nested occurrence of `Val` under `List`). -/
def Val.decEq : (a b : Val) → Decidable (a = b)
  | .vnull, .vnull => isTrue rfl
  | .vbool x, .vbool y =>
      if h : x = y then isTrue (by rw [h]) else isFalse (by simp [h])
  | .vint x, .vint y =>
      if h : x = y then isTrue (by rw [h]) else isFalse (by simp [h])
  | .vstr x, .vstr y =>
      if h : x = y then isTrue (by rw [h]) else isFalse (by simp [h])
  | .vlist xs, .vlist ys =>
      match Val.decEqList xs ys with
      | isTrue h => isTrue (by rw [h])
      | isFalse h => isFalse (by simp [h])
  | .vdict xs, .vdict ys =>
      match Val.decEqDict xs ys with
      | isTrue h => isTrue (by rw [h])
      | isFalse h => isFalse (by simp [h])
  | .vnull, .vbool _ | .vnull, .vint _ | .vnull, .vstr _
  | .vnull, .vlist _ | .vnull, .vdict _
  | .vbool _, .vnull | .vbool _, .vint _ | .vbool _, .vstr _
  | .vbool _, .vlist _ | .vbool _, .vdict _
  | .vint _, .vnull | .vint _, .vbool _ | .vint _, .vstr _
  | .vint _, .vlist _ | .vint _, .vdict _
  | .vstr _, .vnull | .vstr _, .vbool _ | .vstr _, .vint _
  | .vstr _, .vlist _ | .vstr _, .vdict _
  | .vlist _, .vnull | .vlist _, .vbool _ | .vlist _, .vint _
  | .vlist _, .vstr _ | .vlist _, .vdict _
  | .vdict _, .vnull | .vdict _, .vbool _ | .vdict _, .vint _
  | .vdict _, .vstr _ | .vdict _, .vlist _ =>
      isFalse (fun h => Val.noConfusion h)

/-- Decidable equality of lists of `Val`. -/
def Val.decEqList : (xs ys : List Val) → Decidable (xs = ys)
  | [], [] => isTrue rfl
  | [], _ :: _ => isFalse (fun h => List.noConfusion h)
  | _ :: _, [] => isFalse (fun h => List.noConfusion h)
  | x :: xs, y :: ys =>
      match Val.decEq x y, Val.decEqList xs ys with
      | isTrue h1, isTrue h2 => isTrue (by rw [h1, h2])
      | isFalse h1, _ => isFalse (by simp [h1])
      | _, isFalse h2 => isFalse (by simp [h2])

/-- Decidable equality of association lists of `Val`. -/
def Val.decEqDict : (xs ys : List (String × Val)) → Decidable (xs = ys)
  | [], [] => isTrue rfl
  | [], _ :: _ => isFalse (fun h => List.noConfusion h)
  | _ :: _, [] => isFalse (fun h => List.noConfusion h)
  | (k1, v1) :: xs, (k2, v2) :: ys =>
      match String.decEq k1 k2, Val.decEq v1 v2, Val.decEqDict xs ys with
      | isTrue hk, isTrue h1, isTrue h2 => isTrue (by rw [hk, h1, h2])
      | isFalse hk, _, _ => isFalse (by simp [hk])
      | _, isFalse h1, _ => isFalse (by simp [h1])
      | _, _, isFalse h2 => isFalse (by simp [h2])

end

instance : DecidableEq Val := Val.decEq

instance {ε α : Type} [DecidableEq ε] [DecidableEq α] : DecidableEq (Except ε α)
  | .ok a, .ok b =>
      if h : a = b then isTrue (by rw [h]) else isFalse (by simp [h])
  | .error a, .error b =>
      if h : a = b then isTrue (by rw [h]) else isFalse (by simp [h])
  | .ok _, .error _ => isFalse (fun h => Except.noConfusion h)
  | .error _, .ok _ => isFalse (fun h => Except.noConfusion h)

/-- Python exception outcomes relevant to the claims. -/
inductive PyErr : Type
  | assertionError
  | runtimeError
deriving DecidableEq, Repr

/-- First binding for a key in an association-list dict (Python dict lookup). -/
def dictGet (d : List (String × Val)) (k : String) : Option Val :=
  (d.find? (fun kv => kv.1 = k)).map (fun kv => kv.2)

/-- Python `d.get(k, default)` on a dict represented as an association list. -/
def getD (d : List (String × Val)) (k : String) (dflt : Val) : Val :=
  (dictGet d k).getD dflt

/-- Python `v.get(k, default)`: raises (`AttributeError`) unless `v` is a dict. -/
def vgetE (v : Val) (k : String) (dflt : Val) : Except PyErr Val :=
  match v with
  | .vdict d => .ok (getD d k dflt)
  | _ => .error .runtimeError

/-- Python truthiness of a value. -/
def pyTruthy : Val → Bool
  | .vnull => false
  | .vbool b => b
  | .vint n => n != 0
  | .vstr s => s != ""
  | .vlist l => !l.isEmpty
  | .vdict d => !d.isEmpty

/-- Python `v[0]`: first element of a list, first character of a non-empty
string; raises `IndexError` on an empty sequence and `TypeError` on
non-sequences. -/
def pyIndex0E : Val → Except PyErr Val
  | .vlist (x :: _) => .ok x
  | .vlist [] => .error .runtimeError
  | .vstr s => if s = "" then .error .runtimeError else .ok (.vstr (s.take 1))
  | _ => .error .runtimeError

/-- Python `for x in v`: lists yield their elements, dicts their keys,
strings their one-character substrings; other values raise `TypeError`. -/
def pyIterE : Val → Except PyErr (List Val)
  | .vlist l => .ok l
  | .vdict d => .ok (d.map (fun kv => .vstr kv.1))
  | .vstr s => .ok (s.data.map (fun c => .vstr (String.mk [c])))
  | _ => .error .runtimeError

/-- Python `len(v)` for sized values; raises `TypeError` otherwise. -/
def pyLenE : Val → Except PyErr Nat
  | .vlist l => .ok l.length
  | .vdict d => .ok d.length
  | .vstr s => .ok s.length
  | _ => .error .runtimeError

/-- Key list of a dict value (`list(v.keys())`); duplicate association-list
entries are collapsed to their first occurrence, matching `dictGet`. -/
def vkeys (d : List (String × Val)) : List String :=
  (d.map (fun kv => kv.1)).eraseDups

/-- Structural effectful map over `Except` (a transparent `mapM`). -/
def mapME {α β : Type} (f : α → Except PyErr β) : List α → Except PyErr (List β)
  | [] => .ok []
  | a :: as => do
      let b ← f a
      let bs ← mapME f as
      .ok (b :: bs)

/-- Structural effectful left fold over `Except` (a transparent `foldlM`). -/
def foldlME {σ α : Type} (f : σ → α → Except PyErr σ) : σ → List α → Except PyErr σ
  | s, [] => .ok s
  | s, a :: as => do
      let s2 ← f s a
      foldlME f s2 as

example : dictGet [("a", .vint 1), ("b", .vint 2)] "b" = some (.vint 2) := by decide

example : pyIndex0E (.vlist [.vint 5, .vint 7]) = .ok (.vint 5) := by decide

/-! ## extract_component_details -/

/-- One entry of the `used_by` list: `{'name': slc[0], 'stars': int(slc[1])}`. -/
structure UsedByEntry where
  name : String
  stars : Int
deriving DecidableEq, Repr

/-- One security advisory: `{'CVE': cve.split(':')[0], 'CVSS': cve.split(':')[1]}`. -/
structure CVEEntry where
  cve : String
  cvss : String
deriving DecidableEq, Repr

/-- An opened/closed counter pair. -/
structure IssueCounts where
  opened : Val
  closed : Val
deriving DecidableEq, Repr

/-- Month/year split of issue or pull-request counters. -/
structure MonthYear where
  month : IssueCounts
  year : IssueCounts
deriving DecidableEq, Repr

/-- The `github` sub-record built by `extract_component_details`. -/
structure GithubDetails where
  dependent_projects : Val
  dependent_repos : Val
  total_releases : Val
  latest_release_duration : String
  first_release_date : String
  issues : MonthYear
  pull_requests : MonthYear
  stargazers_count : Val
  forks_count : Val
  open_issues_count : Val
  contributors : Val
  size : String
  used_by : List UsedByEntry
deriving DecidableEq, Repr

/-- The `code_metrics` sub-record. -/
structure CodeMetrics where
  code_lines : Val
  average_cyclomatic_complexity : Val
  total_files : Val
deriving DecidableEq, Repr

/-- The flat component summary returned by `extract_component_details`.
`license_analysis` is `none` until (and unless) `perform_license_analysis`
attaches the per-component analysis object, mirroring the key being absent
from the Python dict until the assignment on line 261. -/
structure ComponentSummary where
  ecosystem : Val
  name : Val
  version : Val
  licenses : Val
  security : List CVEEntry
  osio_user_count : Val
  latest_version : Val
  github : GithubDetails
  code_metrics : CodeMetrics
  license_analysis : Option Val := none
deriving DecidableEq, Repr

/-- The boilerplate accessor `component.get(facet, {}).get(key, [dflt])[0]`
used throughout `extract_component_details`, split into its facet-dict part:
`component.get(facet, {})` followed by a `.get` that requires a dict. -/
def facetDictE (component : Val) (facet : String) : Except PyErr (List (String × Val)) := do
  let f ← vgetE component facet (.vdict [])
  match f with
  | .vdict d => .ok d
  | _ => .error .runtimeError

/-- The scalar read `facet.get(key, [dflt])[0]`. -/
def scalarE (d : List (String × Val)) (k : String) (dflt : Val) : Except PyErr Val :=
  pyIndex0E (getD d k (.vlist [dflt]))

/-- Abstraction of `str(datetime.datetime.fromtimestamp(t))`: the exact
CPython rendering of the timestamp is irrelevant to every claim; all that
matters is that it is a fixed function of the numeric value. -/
def fromtimestampStr (t : Int) : String :=
  "datetime.fromtimestamp(" ++ toString t ++ ")"

/-- `str(datetime.datetime.fromtimestamp(v))`: raises `TypeError` unless the
argument is a number. -/
def pyFromtimestampStrE : Val → Except PyErr String
  | .vint n => .ok (fromtimestampStr n)
  | _ => .error .runtimeError

/-- Modelled from the spec: `select_latest_version` is imported from `utils`,
which is not among the sources.  Spec section 4.1: prefer a non-empty explicit
latest-version field over the libio-derived one; if both are empty, fall back
to the record's own version. -/
def select_latest_version (version libio_latest_version latest_version _name : Val) : Val :=
  if pyTruthy latest_version then latest_version
  else if pyTruthy libio_latest_version then libio_latest_version
  else version

/-- One `used_by` token (lines 59-65): `slc = epvs.split(':')`, then
`{'name': slc[0], 'stars': int(slc[1])}`.  A non-string raises
(`AttributeError`), a token without a colon raises (`IndexError`), and a
non-numeric star count raises (`ValueError`). -/
def parseUsedByE : Val → Except PyErr UsedByEntry
  | .vstr s =>
      match s.splitOn ":" with
      | n :: st :: _ =>
          match st.toInt? with
          | some k => .ok ⟨n, k⟩
          | none => .error .runtimeError
      | _ => .error .runtimeError
  | _ => .error .runtimeError

/-- One `cve_ids` token (lines 76-81): `cve.split(':')[0]` and
`cve.split(':')[1]`. -/
def parseCVEE : Val → Except PyErr CVEEntry
  | .vstr s =>
      match s.splitOn ":" with
      | c :: v :: _ => .ok ⟨c, v⟩
      | _ => .error .runtimeError
  | _ => .error .runtimeError

/-- Embedding of `extract_component_details` (lines 24-105).  The repeated
`component.get("package", {})` / `component.get("version", {})` reads are
hoisted: the component value is never mutated, so every read yields the same
facet. -/
def extract_component_details (component : Val) : Except PyErr ComponentSummary := do
  let pkg ← facetDictE component "package"
  let ver ← facetDictE component "version"
  let dependent_projects ← scalarE pkg "libio_dependents_projects" (.vint (-1))
  let dependent_repos ← scalarE pkg "libio_dependents_repos" (.vint (-1))
  let total_releases ← scalarE pkg "libio_total_releases" (.vint (-1))
  let latest_release ← scalarE pkg "libio_latest_release" (.vint 1496302486)
  let latest_release_duration ← pyFromtimestampStrE latest_release
  let issues_month_opened ← scalarE pkg "gh_issues_last_month_opened" (.vint (-1))
  let issues_month_closed ← scalarE pkg "gh_issues_last_month_closed" (.vint (-1))
  let issues_year_opened ← scalarE pkg "gh_issues_last_year_opened" (.vint (-1))
  let issues_year_closed ← scalarE pkg "gh_issues_last_year_closed" (.vint (-1))
  let prs_month_opened ← scalarE pkg "gh_prs_last_month_opened" (.vint (-1))
  let prs_month_closed ← scalarE pkg "gh_prs_last_month_closed" (.vint (-1))
  let prs_year_opened ← scalarE pkg "gh_prs_last_year_opened" (.vint (-1))
  let prs_year_closed ← scalarE pkg "gh_prs_last_year_closed" (.vint (-1))
  let stargazers_count ← scalarE pkg "gh_stargazers" (.vint (-1))
  let forks_count ← scalarE pkg "gh_forks" (.vint (-1))
  let open_issues_count ← scalarE pkg "gh_open_issues_count" (.vint (-1))
  let contributors ← scalarE pkg "gh_contributors_count" (.vint (-1))
  let used_by ← pyIterE (getD pkg "libio_usedby" (.vlist []))
  let used_by_list ← mapME parseUsedByE used_by
  let code_lines ← scalarE ver "cm_loc" (.vint (-1))
  let average_cyclomatic_complexity ← scalarE ver "cm_avg_cyclomatic_complexity" (.vint (-1))
  let total_files ← scalarE ver "cm_num_files" (.vint (-1))
  let cve_ids ← pyIterE (getD ver "cve_ids" (.vlist []))
  let cves ← mapME parseCVEE cve_ids
  let licenses := getD ver "declared_licenses" (.vlist [])
  let name ← scalarE ver "pname" (.vstr "")
  let version ← scalarE ver "version" (.vstr "")
  let ecosystem ← scalarE ver "pecosystem" (.vstr "")
  let libio_latest_version ← scalarE pkg "libio_latest_version" (.vstr "")
  let latest_version_field ← scalarE pkg "latest_version" (.vstr "")
  let latest_version := select_latest_version version libio_latest_version latest_version_field name
  pure {
    ecosystem := ecosystem
    name := name
    version := version
    licenses := licenses
    security := cves
    -- source line 99: the only read without a trailing `[0]`
    osio_user_count := getD ver "osio_usage_count" (.vint 0)
    latest_version := latest_version
    github := {
      dependent_projects := dependent_projects
      dependent_repos := dependent_repos
      total_releases := total_releases
      latest_release_duration := latest_release_duration
      first_release_date := "Apr 16, 2010"
      issues := ⟨⟨issues_month_opened, issues_month_closed⟩,
                 ⟨issues_year_opened, issues_year_closed⟩⟩
      pull_requests := ⟨⟨prs_month_opened, prs_month_closed⟩,
                        ⟨prs_year_opened, prs_year_closed⟩⟩
      stargazers_count := stargazers_count
      forks_count := forks_count
      open_issues_count := open_issues_count
      contributors := contributors
      size := "N/A"
      used_by := used_by_list }
    code_metrics := ⟨code_lines, average_cyclomatic_complexity, total_files⟩ }

example :
    (extract_component_details (.vdict [])).map (fun s => s.name) = .ok (.vstr "") := by
  decide

example :
    (extract_component_details
      (.vdict [("version", .vdict [("osio_usage_count", .vlist [.vint 5])])])).map
      (fun s => s.osio_user_count) = .ok (.vlist [.vint 5]) := by
  decide

/-! ## License-response interpretation -/

/-- Python `v[i]`: list element, string character; dict indexing by an
integer raises (`KeyError`, the keys built here are strings), as does any
out-of-range index. -/
def pyIndexE (v : Val) (i : Nat) : Except PyErr Val :=
  match v with
  | .vlist l =>
      match l.get? i with
      | some x => .ok x
      | none => .error .runtimeError
  | .vstr s =>
      match s.data.get? i with
      | some c => .ok (.vstr (String.mk [c]))
      | none => .error .runtimeError
  | _ => .error .runtimeError

/-- The loop body of `_extract_conflict_packages` (lines 127-136): per entry,
`list_pkgs = list(conflict_pair.keys())`, `assert len(list_pkgs) == 2`, then
the projection to `{package1, license1, package2, license2}`. -/
def conflictPackagesLoop : List Val → Except PyErr (List Val)
  | [] => .ok []
  | conflict_pair :: rest =>
      match conflict_pair with
      | .vdict d =>
          match vkeys d with
          | [k1, k2] => do
              let tail ← conflictPackagesLoop rest
              .ok (.vdict [
                ("package1", .vstr k1),
                ("license1", getD d k1 .vnull),
                ("package2", .vstr k2),
                ("license2", getD d k2 .vnull)] :: tail)
          | _ => .error .assertionError
      | _ => .error .runtimeError

/-- Embedding of `_extract_conflict_packages` (lines 108-138). -/
def _extract_conflict_packages (license_service_output : Val) : Except PyErr Val := do
  if ¬ pyTruthy license_service_output then
    .ok (.vlist [])
  else do
    let conflict_packages ← vgetE license_service_output "conflict_packages" (.vlist [])
    let entries ← pyIterE conflict_packages
    let recs ← conflictPackagesLoop entries
    .ok (.vlist recs)

/-- Per-component body of the `status == 'Unknown'` branch of
`_extract_unknown_licenses` (lines 170-179). -/
def unknownCompE (comp : Val) : Except PyErr (List Val) := do
  let license_analysis ← vgetE comp "license_analysis" (.vdict [])
  let st ← vgetE license_analysis "status" (.vstr "")
  if st = .vstr "Unknown" then do
    let pkg ← vgetE comp "package" (.vstr "Unknown")
    let comp_unknown_licenses ← vgetE license_analysis "unknown_licenses" (.vlist [])
    let lics ← pyIterE comp_unknown_licenses
    .ok (lics.map (fun lic => .vdict [("package", pkg), ("license", lic)]))
  else
    .ok []

/-- The per-pair body of the conflict branch (lines 193-198):
`assert (len(pair) == 2)` then the projection of `pair[0]` and `pair[1]`. -/
def conflictPairE (pair : Val) : Except PyErr Val := do
  let n ← pyLenE pair
  if n = 2 then do
    let l1 ← pyIndexE pair 0
    let l2 ← pyIndexE pair 1
    .ok (Val.vdict [("license1", l1), ("license2", l2)])
  else .error .assertionError

/-- Per-component body of the `status == 'ComponentLicenseConflict'` branch
of `_extract_unknown_licenses` (lines 184-200), including the
`assert (len(pair) == 2)` on each conflicting pair. -/
def conflictCompE (comp : Val) : Except PyErr (List Val) := do
  let license_analysis ← vgetE comp "license_analysis" (.vdict [])
  let st ← vgetE license_analysis "status" (.vstr "")
  if st = .vstr "Conflict" then do
    let pkg ← vgetE comp "package" (.vstr "Unknown")
    let comp_conflict_licenses ← vgetE license_analysis "conflict_licenses" (.vlist [])
    let pairs ← pyIterE comp_conflict_licenses
    let list_conflicting_pairs ← mapME conflictPairE pairs
    .ok [.vdict [("package", pkg), ("conflict_licenses", .vlist list_conflicting_pairs)]]
  else
    .ok []

/-- Embedding of `_extract_unknown_licenses` (lines 141-206).  Note the two
distinct return shapes of the source: the early return on a falsy input hands
back the (empty) `really_unknown_licenses` list itself (line 165), while the
main path builds the two-bucket record (lines 202-205). -/
def _extract_unknown_licenses (license_service_output : Val) : Except PyErr Val := do
  if ¬ pyTruthy license_service_output then
    .ok (.vlist [])
  else do
    let st1 ← vgetE license_service_output "status" (.vstr "")
    let really_unknown_licenses ←
      if st1 = .vstr "Unknown" then do
        let pkgsVal ← vgetE license_service_output "packages" (.vlist [])
        let list_components ← pyIterE pkgsVal
        let ls ← mapME unknownCompE list_components
        pure ls.flatten
      else pure []
    let st2 ← vgetE license_service_output "status" (.vstr "")
    let lic_conflict_licenses ←
      if st2 = .vstr "ComponentLicenseConflict" then do
        let pkgsVal ← vgetE license_service_output "packages" (.vlist [])
        let list_components ← pyIterE pkgsVal
        let ls ← mapME conflictCompE list_components
        pure ls.flatten
      else pure []
    .ok (.vdict [("really_unknown", .vlist really_unknown_licenses),
                 ("component_conflict", .vlist lic_conflict_licenses)])

/-- Embedding of `_extract_license_outliers` (lines 209-229). -/
def _extract_license_outliers (license_service_output : Val) : Except PyErr Val := do
  if ¬ pyTruthy license_service_output then
    .ok (.vlist [])
  else do
    let outlier_packages ← vgetE license_service_output "outlier_packages" (.vdict [])
    match outlier_packages with
    | .vdict d =>
        .ok (.vlist ((vkeys d).map (fun pkg =>
          .vdict [("package", .vstr pkg), ("license", getD d pkg (.vstr "Unknown"))])))
    | _ => .error .runtimeError

example :
    _extract_conflict_packages
      (.vdict [("conflict_packages",
        .vlist [.vdict [("pkgA:1.0", .vstr "MIT"), ("pkgB:2.0", .vstr "GPL")]])]) =
    .ok (.vlist [.vdict [
      ("package1", .vstr "pkgA:1.0"), ("license1", .vstr "MIT"),
      ("package2", .vstr "pkgB:2.0"), ("license2", .vstr "GPL")]]) := by
  decide

example : _extract_unknown_licenses .vnull = .ok (.vlist []) := by decide

example : _extract_unknown_licenses (.vdict [("status", .vstr "Successful")]) =
    .ok (.vdict [("really_unknown", .vlist []), ("component_conflict", .vlist [])]) := by
  decide

/-! ## perform_license_analysis -/

/-- The `{'package', 'version', 'licenses'}` triple fed to the license
scoring service (lines 290-294 and 311-315). -/
structure LicenseScoringInput where
  package : Val
  version : Val
  licenses : Val
deriving DecidableEq, Repr

/-- The `output` dict of `perform_license_analysis` (lines 271-277); the code
always stores a Python list under `f8a_stack_licenses`, so that field is
typed as a list here. -/
structure LicenseAnalysisOut where
  status : Val
  f8a_stack_licenses : List Val
  unknown_licenses : Val
  conflict_packages : Val
  outlier_packages : Val
deriving DecidableEq, Repr

/-- The dict value this record denotes (as stored under `license_analysis`
in the manifest report). -/
def LicenseAnalysisOut.toVal (o : LicenseAnalysisOut) : Val :=
  .vdict [("status", o.status),
          ("f8a_stack_licenses", .vlist o.f8a_stack_licenses),
          ("unknown_licenses", o.unknown_licenses),
          ("conflict_packages", o.conflict_packages),
          ("outlier_packages", o.outlier_packages)]

/-- The inner dependency loop of lines 258-261: attach the component's
`license_analysis` object onto every dependency whose name and version both
match.  With an empty dependency list the component value is never touched,
exactly as in the source. -/
def attachLicenseAnalysis (comp : Val) (dependencies : List ComponentSummary) :
    Except PyErr (List ComponentSummary) :=
  mapME (fun dep => do
    let p ← vgetE comp "package" (.vstr "")
    let v ← vgetE comp "version" (.vstr "")
    if dep.name = p ∧ dep.version = v then do
      let la ← vgetE comp "license_analysis" (.vdict [])
      pure { dep with license_analysis := some la }
    else
      pure dep) dependencies

/-- Embedding of `perform_license_analysis` (lines 232-278).  The HTTP POST
is abstracted by the oracle `lic`: `none` models a
`requests.exceptions.RequestException` (caught at lines 246-248, setting
`flag_stack_license_exception`), `some v` the parsed JSON body of the
response. -/
def perform_license_analysis (lic : List LicenseScoringInput → Option Val)
    (license_score_list : List LicenseScoringInput)
    (dependencies : List ComponentSummary) :
    Except PyErr (LicenseAnalysisOut × List ComponentSummary) := do
  match lic license_score_list with
  | none =>
      -- exception flagged: every output keeps its initial value
      .ok ({ status := .vnull, f8a_stack_licenses := [],
             unknown_licenses := .vlist [], conflict_packages := .vlist [],
             outlier_packages := .vlist [] }, dependencies)
  | some resp => do
      let pkgsVal ← vgetE resp "packages" (.vlist [])
      let list_components ← pyIterE pkgsVal
      let dependencies2 ← foldlME
        (fun ds comp => attachLicenseAnalysis comp ds) dependencies list_components
      let stackLicVal ← vgetE resp "stack_license" .vnull
      let stack_license := if stackLicVal ≠ Val.vnull then [stackLicVal] else []
      let stack_license_status ← vgetE resp "status" .vnull
      let unknown_licenses ← _extract_unknown_licenses resp
      let license_conflict_packages ← _extract_conflict_packages resp
      let license_outliers ← _extract_license_outliers resp
      .ok ({ status := stack_license_status,
             f8a_stack_licenses := stack_license,
             unknown_licenses := unknown_licenses,
             conflict_packages := license_conflict_packages,
             outlier_packages := license_outliers }, dependencies2)

/-! ## aggregate_stack_data -/

/-- The value returned by `get_dependency_data`: `{"result": result}`. -/
structure GDRes where
  result : List Val
deriving DecidableEq, Repr

/-- One entry of a manifest's `_resolved` list.  The code reads
`elem["package"]` and `elem["version"]` directly (both keys exist in every
well-formed batch) and compares them against `None`, modelled by `.vnull`. -/
structure ResolvedDep where
  package : Val
  version : Val
deriving DecidableEq, Repr

/-- One entry of `unknown_dependencies`: `{'name': name, 'version': version}`
(line 335). -/
structure UnknownDep where
  name : Val
  version : Val
deriving DecidableEq, Repr

/-- The `user_stack_info` sub-record of a manifest report (lines 340-352). -/
structure UserStackInfo where
  ecosystem : String
  analyzed_dependencies_count : Nat
  analyzed_dependencies : List ComponentSummary
  unknown_dependencies : List UnknownDep
  unknown_dependencies_count : Nat
  recommendation_ready : Bool
  total_licenses : Nat
  distinct_licenses : List Val
  stack_license_conflict : Val
  dependencies : List ResolvedDep
  license_analysis : Val
deriving DecidableEq, Repr

/-- One manifest report (lines 337-353). -/
structure ManifestData where
  manifest_name : String
  manifest_file_path : String
  user_stack_info : UserStackInfo
deriving DecidableEq, Repr

/-- Python hashability: inserting a list or dict into a `set` raises
`TypeError`. -/
def pyHashable : Val → Bool
  | .vlist _ => false
  | .vdict _ => false
  | _ => true

/-- The hashing done by `set(licenses)` (line 320). -/
def ensureHashableE (l : List Val) : Except PyErr Unit :=
  if l.all pyHashable then .ok () else .error .runtimeError

/-- The hashing done by the set comprehensions over (name, version) tuples
(lines 330-332): a tuple is hashable iff its components are. -/
def ensureHashablePairsE (l : List (Val × Val)) : Except PyErr Unit :=
  if l.all (fun p => pyHashable p.1 && pyHashable p.2) then .ok () else .error .runtimeError

/-- Deterministic stand-in for iterating a Python set built from `l`:
duplicates are collapsed.  Python's own set iteration order is unspecified;
every claim about these sets is order-insensitive. -/
def pySetList {α : Type} [DecidableEq α] (l : List α) : List α :=
  l.dedup

/-- The per-component body of the loop at lines 306-318: extract the summary,
build the license-scoring input, and extend the flat license list
(`licenses.extend` iterates the component's raw licenses value). -/
def aggregateStep (acc : List ComponentSummary × List Val × List LicenseScoringInput)
    (component : Val) :
    Except PyErr (List ComponentSummary × List Val × List LicenseScoringInput) := do
  let data ← vgetE component "data" .vnull
  if pyTruthy data then do
    let first ← pyIndex0E data
    let component_data ← extract_component_details first
    let license_scoring_input : LicenseScoringInput :=
      ⟨component_data.name, component_data.version, component_data.licenses⟩
    let lics ← pyIterE component_data.licenses
    .ok (acc.1 ++ [component_data], acc.2.1 ++ lics, acc.2.2 ++ [license_scoring_input])
  else
    .ok acc

/-- Lines 330-335: the requested-set reconciliation.  The Python set
difference `all_dependencies.difference(analyzed_dependencies)` is modelled
as a first-occurrence dedup followed by a membership filter; its iteration
order is unspecified in Python and every claim about it is set-level. -/
def unknownDepsOf (deps : List ResolvedDep) (dependencies : List ComponentSummary) :
    List UnknownDep :=
  let all_pairs := deps.map (fun d => (d.package, d.version))
  let analyzed_pairs := dependencies.map (fun s => (s.name, s.version))
  ((pySetList all_pairs).filter
      (fun (p : Val × Val) => !(decide (p ∈ analyzed_pairs)))).map
    (fun p => UnknownDep.mk p.1 p.2)

/-- The pure report assembly of lines 337-353. -/
def assembleReport (manifest_file manifest_file_path ecosystem : String)
    (deps : List ResolvedDep) (dependencies : List ComponentSummary)
    (stack_distinct_licenses : List Val)
    (stack_license_conflict license_analysis : Val) : ManifestData :=
  { manifest_name := manifest_file
    manifest_file_path := manifest_file_path
    user_stack_info := {
      ecosystem := ecosystem
      analyzed_dependencies_count := dependencies.length
      analyzed_dependencies := dependencies
      unknown_dependencies := unknownDepsOf deps dependencies
      unknown_dependencies_count := (unknownDepsOf deps dependencies).length
      recommendation_ready := true
      total_licenses := stack_distinct_licenses.length
      distinct_licenses := stack_distinct_licenses
      stack_license_conflict := stack_license_conflict
      dependencies := deps
      license_analysis := license_analysis } }

/-- Embedding of `aggregate_stack_data` (lines 300-354), parameterised by the
license-service oracle `lic`. -/
def aggregate_stack_data (lic : List LicenseScoringInput → Option Val)
    (stack : GDRes) (manifest_file : String) (ecosystem : String)
    (deps : List ResolvedDep) (manifest_file_path : String) (persist : Bool) :
    Except PyErr ManifestData := do
  let acc ← foldlME aggregateStep ([], [], []) stack.result
  let (dependencies0, licenses, license_score_list) := acc
  let _ ← ensureHashableE licenses
  let stack_distinct_licenses := pySetList licenses
  let (license_analysis, stack_license_conflict, dependencies) ←
    if persist then do
      let (la, ds) ← perform_license_analysis lic license_score_list dependencies0
      -- line 325: `len(license_analysis.get('f8a_stack_licenses', [])) == 0`;
      -- the record always stores a list there, so the length is direct
      pure (la.toVal, Val.vbool (la.f8a_stack_licenses.length == 0), ds)
    else
      pure (Val.vdict [], Val.vnull, dependencies0)
  let _ ← ensureHashablePairsE (deps.map (fun d => (d.package, d.version)))
  let _ ← ensureHashablePairsE (dependencies.map (fun s => (s.name, s.version)))
  .ok (assembleReport manifest_file manifest_file_path ecosystem deps dependencies
        stack_distinct_licenses stack_license_conflict license_analysis)

/-! ## get_dependency_data -/

/-- Outcome of the gremlin POST for one dependency: `raised` models any
exception raised inside the `try` block before the status check (transport
error, malformed JSON — all caught by `except Exception`), `response` a
completed HTTP response with parsed JSON body. -/
inductive GraphOutcome : Type
  | raised
  | response (status_code : Nat) (body : Val)
deriving DecidableEq, Repr

/-- Lines 375-388: whether one graph response contributes a record, and which.
Every exception raised while inspecting the body is caught by the enclosing
`except Exception` and means "skip", so the checks collapse to an `Option`:
non-200 status, missing `result` key, missing/empty/unsized `data`, and
non-dict bodies (where `'result' not in ...` or the subscript raises) all
yield `none`; otherwise the appended record is `graph_resp["result"]`. -/
def graphResultRecord : GraphOutcome → Option Val
  | .raised => none
  | .response code body =>
      if code = 200 then
        match body with
        | .vdict bd =>
            match dictGet bd "result" with
            | none => none
            | some r =>
                match r with
                | .vdict rd =>
                    match dictGet rd "data" with
                    | none => none
                    | some (.vlist dl) => if dl.isEmpty then none else some r
                    | some (.vstr s) => if s.length = 0 then none else some r
                    | some (.vdict dd) => if dd.isEmpty then none else some r
                    | some _ => none
                | _ => none
        | _ => none
      else none

/-- The contribution of a single resolved dependency to
`get_dependency_data`'s accumulated result (missing-name/version skip plus
the response handling). -/
def fetchOne (g : String → Val → Val → GraphOutcome) (ecosystem : String)
    (elem : ResolvedDep) : Option Val :=
  if elem.package = .vnull ∨ elem.version = .vnull then none
  else graphResultRecord (g ecosystem elem.package elem.version)

/-- The accumulation loop of `get_dependency_data` (lines 360-388). -/
def gddLoop (g : String → Val → Val → GraphOutcome) (ecosystem : String) :
    List ResolvedDep → List Val
  | [] => []
  | elem :: rest =>
      if elem.package = .vnull ∨ elem.version = .vnull then
        gddLoop g ecosystem rest
      else
        match graphResultRecord (g ecosystem elem.package elem.version) with
        | none => gddLoop g ecosystem rest
        | some r => r :: gddLoop g ecosystem rest

/-- Embedding of `get_dependency_data` (lines 357-390), parameterised by the
graph-store oracle `g` giving the outcome of the POST for a given
(ecosystem, package, version) query.  The `Option` return type mirrors the
Python function's declared possibility of returning `None`, against which the
caller guards; the function in fact always returns `{"result": result}`. -/
def get_dependency_data (g : String → Val → Val → GraphOutcome)
    (resolved : List ResolvedDep) (ecosystem : String) : Option GDRes :=
  some ⟨gddLoop g ecosystem resolved⟩

/-! ## StackAggregator.execute -/

/-- One manifest description inside the batch (`result['details'][0]`,
lines 407-410). -/
structure BatchEntry where
  resolved : List ResolvedDep
  ecosystem : String
  manifest_file : String
  manifest_file_path : String
deriving DecidableEq, Repr

/-- The incoming batch (`aggregated`): the request id, the raw
`current_stack_license` value, and the manifest list. -/
structure Batch where
  external_request_id : Val
  current_stack_license : Val
  result : List BatchEntry
deriving DecidableEq, Repr

/-- The `_audit` record (lines 423-427). -/
structure Audit where
  started_at : String
  ended_at : String
  version : String
deriving DecidableEq, Repr

/-- The full `stack_data` envelope built at lines 428-432. -/
structure StackData where
  stack_data : List ManifestData
  audit : Audit
  release : String
deriving DecidableEq, Repr

/-- The value returned by `StackAggregator.execute`: the success envelope or
the database-error envelope (lines 451-464). -/
inductive ExecOut : Type
  | success (external_request_id : Val) (result : StackData)
  | databaseError (external_request_id : Val) (message : String)
deriving DecidableEq, Repr

/-- Python `dict.update` with a single key: replace the binding in place, or
append it at the end. -/
def dictUpdate (d : List (String × Val)) (k : String) (v : Val) : List (String × Val) :=
  if (d.map (fun kv => kv.1)).contains k then
    d.map (fun kv => if kv.1 = k then (kv.1, v) else kv)
  else d ++ [(k, v)]

/-- Lines 416-419: merge the externally supplied current-stack-license hint
into the manifest's `license_analysis` record.  The truthiness guard
`output and output.get('user_stack_info')` always holds for the records the
aggregator builds; `.update` requires the stored `license_analysis` to be a
dict (it always is here) and raises otherwise. -/
def mergeCurrentStackLicense (current_stack_license : Val) (output : ManifestData) :
    Except PyErr ManifestData :=
  match output.user_stack_info.license_analysis with
  | .vdict d =>
      .ok { output with user_stack_info := { output.user_stack_info with
              license_analysis :=
                .vdict (dictUpdate d "current_stack_license" current_stack_license) } }
  | _ => .error .runtimeError

/-- Python `str.lower()` on the ASCII ecosystem names this engine sees,
written as an explicit character map so that it evaluates by kernel
reduction. -/
def pyLower (s : String) : String :=
  String.mk (s.data.map Char.toLower)

/-- The per-manifest body of the loop in `execute` (lines 406-420): fetch
the dependency data, guard against `None`, aggregate, merge the
current-stack-license hint, and append the report. -/
def executeStep (g : String → Val → Val → GraphOutcome)
    (lic : List LicenseScoringInput → Option Val) (current_stack_license : Val)
    (persist : Bool) (acc : List ManifestData) (entry : BatchEntry) :
    Except PyErr (List ManifestData) :=
  match get_dependency_data g entry.resolved entry.ecosystem with
  | none => .ok acc
  | some finished => do
      let output ← aggregate_stack_data lic finished entry.manifest_file
                     (pyLower entry.ecosystem) entry.resolved
                     entry.manifest_file_path persist
      let output2 ← mergeCurrentStackLicense current_stack_license output
      .ok (acc ++ [output2])

/-- Embedding of `StackAggregator.execute` (lines 396-464).  External
collaborators are abstracted by oracles: `g` the graph store, `lic` the
license-scoring service, `db` the outcome of the insert/commit
(`SQLAlchemyError` messages on failure); the two `utcnow()` readings are the
parameters `started_at` and `ended_at`. -/
def StackAggregator.execute (g : String → Val → Val → GraphOutcome)
    (lic : List LicenseScoringInput → Option Val) (db : Except String Unit)
    (started_at ended_at : String) (aggregated : Batch) (persist : Bool) :
    Except PyErr ExecOut := do
  let external_request_id := aggregated.external_request_id
  -- line 404: `aggregated.get('current_stack_license', {}).get('1', {})`
  let current_stack_license ← vgetE aggregated.current_stack_license "1" (.vdict [])
  let stack_data ← foldlME (executeStep g lic current_stack_license persist)
                     [] aggregated.result
  let stack_data_env : StackData := ⟨stack_data, ⟨started_at, ended_at, "v1"⟩, "None:None:None"⟩
  if persist then
    match db with
    | .ok _ => .ok (.success external_request_id stack_data_env)
    | .error e => .ok (.databaseError external_request_id e)
  else
    .ok (.success external_request_id stack_data_env)

/-! ## Proof infrastructure -/

@[simp] theorem except_bind_ok {α β : Type} (a : α) (f : α → Except PyErr β) :
    (Except.ok a >>= f) = f a := rfl

@[simp] theorem except_bind_error {α β : Type} (e : PyErr) (f : α → Except PyErr β) :
    ((Except.error e : Except PyErr α) >>= f) = Except.error e := rfl

@[simp] theorem except_pure_eq {α : Type} (a : α) :
    (pure a : Except PyErr α) = Except.ok a := rfl

/-! ## Claim C5: conflict-package extraction -/

/-- The projection the spec describes for one two-key conflict entry:
first key and its license, second key and its license, in key-iteration
order. -/
def conflictProjection (d : List (String × Val)) : Val :=
  match vkeys d with
  | [k1, k2] => .vdict [("package1", .vstr k1), ("license1", getD d k1 .vnull),
                        ("package2", .vstr k2), ("license2", getD d k2 .vnull)]
  | _ => .vnull

theorem conflictPackagesLoop_all_two (entries : List (List (String × Val)))
    (h : ∀ d ∈ entries, (vkeys d).length = 2) :
    conflictPackagesLoop (entries.map Val.vdict) = .ok (entries.map conflictProjection) := by
  induction entries with
  | nil => rfl
  | cons d rest ih =>
      obtain ⟨k1, k2, hk⟩ := List.length_eq_two.mp (h d (List.mem_cons_self d rest))
      have hrest := ih (fun e he => h e (List.mem_cons_of_mem d he))
      simp [conflictPackagesLoop, hk, hrest, conflictProjection]

theorem conflictPackagesLoop_bad (entries : List (List (String × Val)))
    (h : ∃ d ∈ entries, (vkeys d).length ≠ 2) :
    conflictPackagesLoop (entries.map Val.vdict) = .error .assertionError := by
  induction entries with
  | nil => simp at h
  | cons d rest ih =>
      by_cases hd : (vkeys d).length = 2
      · obtain ⟨k1, k2, hk⟩ := List.length_eq_two.mp hd
        obtain ⟨e, he, hne⟩ := h
        rcases List.mem_cons.mp he with rfl | hmem
        · exact absurd hd hne
        · have hrest := ih ⟨e, hmem, hne⟩
          simp [conflictPackagesLoop, hk, hrest]
      · match hk : vkeys d with
        | [] => simp [conflictPackagesLoop, hk]
        | [_] => simp [conflictPackagesLoop, hk]
        | _ :: _ :: _ :: _ => simp [conflictPackagesLoop, hk]
        | [a, b] => exact absurd (by rw [hk]; rfl) hd

/-- C5: for every license-service response whose `conflict_packages` entries
are mappings, `_extract_conflict_packages` projects each two-key entry to the
record `{package1, license1, package2, license2}` in key-iteration order (in
particular `[{"pkgA:1.0": "MIT", "pkgB:2.0": "GPL"}]` yields exactly
`[{package1: "pkgA:1.0", license1: "MIT", package2: "pkgB:2.0",
license2: "GPL"}]`), and any entry whose key count differs from 2 makes the
extraction fail loudly with the distinguishable `assertionError` instead of
being silently dropped. -/
theorem c5_conflict_packages (o : Val) (entries : List (List (String × Val)))
    (htr : pyTruthy o = true)
    (hcp : vgetE o "conflict_packages" (.vlist []) = .ok (.vlist (entries.map Val.vdict))) :
    ((∀ d ∈ entries, (vkeys d).length = 2) →
        _extract_conflict_packages o = .ok (.vlist (entries.map conflictProjection)))
    ∧ ((∃ d ∈ entries, (vkeys d).length ≠ 2) →
        _extract_conflict_packages o = .error .assertionError)
    ∧ _extract_conflict_packages
        (.vdict [("conflict_packages",
          .vlist [.vdict [("pkgA:1.0", .vstr "MIT"), ("pkgB:2.0", .vstr "GPL")]])]) =
      .ok (.vlist [.vdict [
        ("package1", .vstr "pkgA:1.0"), ("license1", .vstr "MIT"),
        ("package2", .vstr "pkgB:2.0"), ("license2", .vstr "GPL")]]) := by
  refine ⟨fun h => ?_, fun h => ?_, by decide⟩
  · simp [_extract_conflict_packages, htr, hcp, pyIterE,
          conflictPackagesLoop_all_two entries h]
  · simp [_extract_conflict_packages, htr, hcp, pyIterE,
          conflictPackagesLoop_bad entries h]

/-- Witness for C5 at a concrete response holding one well-formed two-key
entry and, separately, one with a malformed single-key entry. -/
theorem c5_conflict_packages_witness :
    _extract_conflict_packages
        (.vdict [("conflict_packages", .vlist [.vdict [("a", .vnull)]])]) =
      .error .assertionError :=
  (c5_conflict_packages
      (.vdict [("conflict_packages", .vlist [.vdict [("a", .vnull)]])])
      [[("a", .vnull)]] (by decide) (by decide)).2.1
    ⟨[("a", .vnull)], by decide, by decide⟩

/-! ## Claim C6: unknown-license extraction -/

@[simp] theorem vgetE_vdict (d : List (String × Val)) (k : String) (dflt : Val) :
    vgetE (.vdict d) k dflt = .ok (getD d k dflt) := rfl

@[simp] theorem pyIterE_vlist (l : List Val) : pyIterE (.vlist l) = .ok l := rfl

/-- Generic totality of `mapME` when every element succeeds. -/
theorem mapME_ok_of_all {α β : Type} (f : α → Except PyErr β) (l : List α)
    (h : ∀ x ∈ l, ∃ y, f x = .ok y) : ∃ ys, mapME f l = .ok ys := by
  induction l with
  | nil => exact ⟨[], rfl⟩
  | cons a as ih =>
      obtain ⟨y, hy⟩ := h a (List.mem_cons_self a as)
      obtain ⟨ys, hys⟩ := ih (fun x hx => h x (List.mem_cons_of_mem a hx))
      exact ⟨y :: ys, by simp [mapME, hy, hys]⟩

/-- Whether an extraction result is the two-bucket record the spec describes:
a mapping with exactly the keys `really_unknown` and `component_conflict`,
in that order, each holding a list. -/
def isTwoBucketRecord : Except PyErr Val → Bool
  | .ok (.vdict [("really_unknown", .vlist _), ("component_conflict", .vlist _)]) => true
  | _ => false

/-- `true` iff the value is a mapping. -/
def isVdict : Val → Bool
  | .vdict _ => true
  | _ => false

/-- The underlying association list of a mapping (junk `[]` otherwise). -/
def asDict : Val → List (String × Val)
  | .vdict d => d
  | _ => []

/-- `true` iff the value is a list. -/
def isVlist : Val → Bool
  | .vlist _ => true
  | _ => false

/-- The underlying element list of a list value (junk `[]` otherwise). -/
def asVlist : Val → List Val
  | .vlist l => l
  | _ => []

theorem isVdict_iff (v : Val) : isVdict v = true ↔ ∃ d, v = .vdict d := by
  cases v <;> simp [isVdict]

theorem isVlist_iff (v : Val) : isVlist v = true ↔ ∃ l, v = .vlist l := by
  cases v <;> simp [isVlist]

/-- A conflicting pair of the shape the assert demands: a two-element list. -/
def isPairList : Val → Bool
  | .vlist l => l.length == 2
  | _ => false

/-- Shape of one component that the `Unknown` branch of
`_extract_unknown_licenses` reads without raising. -/
def wfUnknownComp (comp : Val) : Bool :=
  isVdict comp &&
  (let la := getD (asDict comp) "license_analysis" (.vdict [])
   isVdict la &&
   (!decide (getD (asDict la) "status" (.vstr "") = .vstr "Unknown") ||
    isVlist (getD (asDict la) "unknown_licenses" (.vlist []))))

/-- Shape of one component that the conflict branch of
`_extract_unknown_licenses` reads without raising (every conflicting pair a
two-element list, satisfying the assert). -/
def wfConflictComp (comp : Val) : Bool :=
  isVdict comp &&
  (let la := getD (asDict comp) "license_analysis" (.vdict [])
   isVdict la &&
   (!decide (getD (asDict la) "status" (.vstr "") = .vstr "Conflict") ||
    (isVlist (getD (asDict la) "conflict_licenses" (.vlist [])) &&
     (asVlist (getD (asDict la) "conflict_licenses" (.vlist []))).all isPairList)))

/-- Well-formedness of a truthy license-service response for
`_extract_unknown_licenses`: a non-empty mapping whose `packages` value is a
list of well-shaped components whenever one of the two status branches
fires. -/
def unknownRespWF (o : Val) : Bool :=
  isVdict o && pyTruthy o
  && (!decide (getD (asDict o) "status" (.vstr "") = .vstr "Unknown") ||
      (isVlist (getD (asDict o) "packages" (.vlist [])) &&
       (asVlist (getD (asDict o) "packages" (.vlist []))).all wfUnknownComp))
  && (!decide (getD (asDict o) "status" (.vstr "") = .vstr "ComponentLicenseConflict") ||
      (isVlist (getD (asDict o) "packages" (.vlist [])) &&
       (asVlist (getD (asDict o) "packages" (.vlist []))).all wfConflictComp))

theorem unknownCompE_wf (comp : Val) (h : wfUnknownComp comp = true) :
    ∃ l, unknownCompE comp = .ok l := by
  simp only [wfUnknownComp, Bool.and_eq_true, Bool.or_eq_true] at h
  obtain ⟨h1, h2, h3⟩ := h
  obtain ⟨cd, rfl⟩ := (isVdict_iff _).mp h1
  simp only [asDict] at h2
  obtain ⟨la, hla⟩ := (isVdict_iff _).mp h2
  rw [show asDict (Val.vdict cd) = cd from rfl, hla] at h3
  simp only [asDict] at h3
  by_cases hst : getD la "status" (.vstr "") = .vstr "Unknown"
  · rcases h3 with h3 | h3
    · simp [hst] at h3
    · obtain ⟨ul, hul⟩ := (isVlist_iff _).mp h3
      refine ⟨ul.map (fun lic =>
        .vdict [("package", getD cd "package" (.vstr "Unknown")), ("license", lic)]), ?_⟩
      simp [unknownCompE, hla, hst, hul]
  · exact ⟨[], by simp [unknownCompE, hla, hst]⟩

theorem conflictPairE_ok (pair : Val) (h : isPairList pair = true) :
    ∃ y, conflictPairE pair = .ok y := by
  cases pair <;> simp [isPairList] at h
  rename_i l
  obtain ⟨a, b, rfl⟩ := List.length_eq_two.mp h
  exact ⟨.vdict [("license1", a), ("license2", b)],
    by simp [conflictPairE, pyLenE, pyIndexE]⟩

theorem conflictCompE_wf (comp : Val) (h : wfConflictComp comp = true) :
    ∃ l, conflictCompE comp = .ok l := by
  simp only [wfConflictComp, Bool.and_eq_true, Bool.or_eq_true] at h
  obtain ⟨h1, h2, h3⟩ := h
  obtain ⟨cd, rfl⟩ := (isVdict_iff _).mp h1
  simp only [asDict] at h2
  obtain ⟨la, hla⟩ := (isVdict_iff _).mp h2
  rw [show asDict (Val.vdict cd) = cd from rfl, hla] at h3
  simp only [asDict] at h3
  by_cases hst : getD la "status" (.vstr "") = .vstr "Conflict"
  · rcases h3 with h3 | h3
    · simp [hst] at h3
    · obtain ⟨hcl1, hcl2⟩ := h3
      obtain ⟨pairs, hcl⟩ := (isVlist_iff _).mp hcl1
      rw [hcl] at hcl2
      simp only [asVlist] at hcl2
      obtain ⟨ys, hys⟩ := mapME_ok_of_all conflictPairE pairs
        (fun p hp => conflictPairE_ok p (List.all_eq_true.mp hcl2 p hp))
      refine ⟨[.vdict [("package", getD cd "package" (.vstr "Unknown")),
                       ("conflict_licenses", .vlist ys)]], ?_⟩
      simp [conflictCompE, hla, hst, hcl, hys]
  · exact ⟨[], by simp [conflictCompE, hla, hst]⟩

/-- Shape analysis of `_extract_unknown_licenses`: the bare empty list on a
falsy response, the two-bucket record on a truthy well-shaped one (helper
shared by the C6 and C7 developments). -/
theorem c6_unknown_shape (o : Val) :
    (pyTruthy o = false → _extract_unknown_licenses o = .ok (.vlist []))
    ∧ (unknownRespWF o = true →
        isTwoBucketRecord (_extract_unknown_licenses o) = true) := by
  constructor
  · intro h
    simp [_extract_unknown_licenses, h]
  · intro h
    simp only [unknownRespWF, Bool.and_eq_true, Bool.or_eq_true] at h
    obtain ⟨⟨⟨h1, htr⟩, hu⟩, hc⟩ := h
    obtain ⟨od, rfl⟩ := (isVdict_iff _).mp h1
    simp only [asDict] at hu hc
    by_cases hst : getD od "status" (.vstr "") = .vstr "Unknown"
    · rcases hu with hu | hu
      · simp [hst] at hu
      · obtain ⟨hp1, hp2⟩ := hu
        obtain ⟨comps, hcomps⟩ := (isVlist_iff _).mp hp1
        rw [hcomps] at hp2
        simp only [asVlist] at hp2
        obtain ⟨rus, hrus⟩ := mapME_ok_of_all unknownCompE comps
          (fun c hcm => unknownCompE_wf c (List.all_eq_true.mp hp2 c hcm))
        have hne : ¬ (getD od "status" (.vstr "") = .vstr "ComponentLicenseConflict") := by
          rw [hst]; simp
        simp [_extract_unknown_licenses, htr, hst, hne, hcomps, hrus, isTwoBucketRecord]
    · by_cases hst2 : getD od "status" (.vstr "") = .vstr "ComponentLicenseConflict"
      · rcases hc with hc | hc
        · simp [hst2] at hc
        · obtain ⟨hp1, hp2⟩ := hc
          obtain ⟨comps, hcomps⟩ := (isVlist_iff _).mp hp1
          rw [hcomps] at hp2
          simp only [asVlist] at hp2
          obtain ⟨ccs, hccs⟩ := mapME_ok_of_all conflictCompE comps
            (fun c hcm => conflictCompE_wf c (List.all_eq_true.mp hp2 c hcm))
          simp [_extract_unknown_licenses, htr, hst, hst2, hcomps, hccs,
                isTwoBucketRecord]
      · simp [_extract_unknown_licenses, htr, hst, hst2, isTwoBucketRecord]

/-- C6 (amended): `_extract_unknown_licenses` never raises on an empty or
absent response, but then returns the bare empty list; on a truthy,
well-shaped mapping response it returns (without raising) the record with
exactly the two buckets `really_unknown` and `component_conflict`, each a
list. -/
theorem c6_unknown_licenses (o : Val) :
    (pyTruthy o = false → _extract_unknown_licenses o = .ok (.vlist []))
    ∧ (unknownRespWF o = true →
        isTwoBucketRecord (_extract_unknown_licenses o) = true) :=
  c6_unknown_shape o

/-- C6 counterexample: for the empty/absent response the function returns the
bare empty list built at line 162 (early return, line 165), not a record with
the two buckets. -/
theorem c6_unknown_licenses_counterexample :
    _extract_unknown_licenses .vnull = .ok (.vlist [])
    ∧ isTwoBucketRecord (_extract_unknown_licenses .vnull) = false := by
  decide

/-- Witness for C6 at a concrete `Unknown`-status response with one component
carrying two unknown licenses. -/
theorem c6_unknown_licenses_witness :
    isTwoBucketRecord (_extract_unknown_licenses
      (.vdict [("status", .vstr "Unknown"),
               ("packages", .vlist [.vdict [
                  ("package", .vstr "p"),
                  ("license_analysis", .vdict [
                     ("status", .vstr "Unknown"),
                     ("unknown_licenses", .vlist [.vstr "X", .vstr "Y"])])]])])) = true :=
  (c6_unknown_licenses
      (.vdict [("status", .vstr "Unknown"),
               ("packages", .vlist [.vdict [
                  ("package", .vstr "p"),
                  ("license_analysis", .vdict [
                     ("status", .vstr "Unknown"),
                     ("unknown_licenses", .vlist [.vstr "X", .vstr "Y"])])]])])).2
    (by decide)

/-! ## Extractor well-formedness (claims C3, C4, C7) -/

/-- `true` on `ok` results. -/
def exceptOk {α : Type} : Except PyErr α → Bool
  | .ok _ => true
  | .error _ => false

/-- First element of a stored multi-valued field, or the default when the
field is absent: the reduction the spec describes for scalar reads. -/
def firstD (d : List (String × Val)) (k : String) (dflt : Val) : Val :=
  match dictGet d k with
  | some (.vlist (x :: _)) => x
  | _ => dflt

/-- Numeric variant of `firstD` for the release timestamp. -/
def firstIntD (d : List (String × Val)) (k : String) (dflt : Int) : Int :=
  match dictGet d k with
  | some (.vlist (.vint n :: _)) => n
  | _ => dflt

/-- The key is absent or holds a non-empty list (the store's multi-valued
convention). -/
def wfScalarKey (d : List (String × Val)) (k : String) : Bool :=
  match dictGet d k with
  | none => true
  | some (.vlist (_ :: _)) => true
  | some _ => false

/-- The key is absent or holds a list with a numeric head. -/
def wfIntKey (d : List (String × Val)) (k : String) : Bool :=
  match dictGet d k with
  | none => true
  | some (.vlist (.vint _ :: _)) => true
  | some _ => false

theorem scalarE_wf (d : List (String × Val)) (k : String) (dflt : Val)
    (h : wfScalarKey d k = true) :
    scalarE d k dflt = .ok (firstD d k dflt) := by
  unfold wfScalarKey at h
  cases hg : dictGet d k with
  | none => simp [scalarE, getD, hg, firstD, pyIndex0E]
  | some v =>
      rw [hg] at h
      cases v with
      | vlist l =>
          cases l with
          | nil => simp at h
          | cons x xs => simp [scalarE, getD, hg, firstD, pyIndex0E]
      | vnull => simp at h
      | vbool b => simp at h
      | vint n => simp at h
      | vstr s => simp at h
      | vdict dd => simp at h

theorem scalarE_wfInt (d : List (String × Val)) (k : String) (dflt : Int)
    (h : wfIntKey d k = true) :
    scalarE d k (.vint dflt) = .ok (.vint (firstIntD d k dflt)) := by
  unfold wfIntKey at h
  cases hg : dictGet d k with
  | none => simp [scalarE, getD, hg, firstIntD, pyIndex0E]
  | some v =>
      rw [hg] at h
      cases v with
      | vlist l =>
          cases l with
          | nil => simp at h
          | cons x xs =>
              cases x with
              | vint n => simp [scalarE, getD, hg, firstIntD, pyIndex0E]
              | vnull => simp at h
              | vbool b => simp at h
              | vstr s => simp at h
              | vlist l2 => simp at h
              | vdict d2 => simp at h
      | vnull => simp at h
      | vbool b => simp at h
      | vint n => simp at h
      | vstr s => simp at h
      | vdict dd => simp at h

/-- Total counterpart of `parseUsedByE` on parseable tokens (proof helper). -/
def usedByOf (v : Val) : UsedByEntry :=
  match v with
  | .vstr s =>
      match s.splitOn ":" with
      | n :: st :: _ => ⟨n, (st.toInt?).getD 0⟩
      | _ => ⟨"", 0⟩
  | _ => ⟨"", 0⟩

/-- Total counterpart of `parseCVEE` on parseable tokens (proof helper). -/
def cveOf (v : Val) : CVEEntry :=
  match v with
  | .vstr s =>
      match s.splitOn ":" with
      | c :: w :: _ => ⟨c, w⟩
      | _ => ⟨"", ""⟩
  | _ => ⟨"", ""⟩

theorem parseUsedByE_eq (v : Val) (h : exceptOk (parseUsedByE v) = true) :
    parseUsedByE v = .ok (usedByOf v) := by
  cases v with
  | vstr s =>
      cases hsp : s.splitOn ":" with
      | nil => simp [parseUsedByE, hsp, exceptOk] at h
      | cons n rest =>
          cases rest with
          | nil => simp [parseUsedByE, hsp, exceptOk] at h
          | cons st rest2 =>
              cases hti : st.toInt? with
              | none => simp [parseUsedByE, hsp, hti, exceptOk] at h
              | some k => simp [parseUsedByE, usedByOf, hsp, hti]
  | vnull => simp [parseUsedByE, exceptOk] at h
  | vbool b => simp [parseUsedByE, exceptOk] at h
  | vint n => simp [parseUsedByE, exceptOk] at h
  | vlist l => simp [parseUsedByE, exceptOk] at h
  | vdict d => simp [parseUsedByE, exceptOk] at h

theorem parseCVEE_eq (v : Val) (h : exceptOk (parseCVEE v) = true) :
    parseCVEE v = .ok (cveOf v) := by
  cases v with
  | vstr s =>
      cases hsp : s.splitOn ":" with
      | nil => simp [parseCVEE, hsp, exceptOk] at h
      | cons c rest =>
          cases rest with
          | nil => simp [parseCVEE, hsp, exceptOk] at h
          | cons w rest2 => simp [parseCVEE, cveOf, hsp]
  | vnull => simp [parseCVEE, exceptOk] at h
  | vbool b => simp [parseCVEE, exceptOk] at h
  | vint n => simp [parseCVEE, exceptOk] at h
  | vlist l => simp [parseCVEE, exceptOk] at h
  | vdict d => simp [parseCVEE, exceptOk] at h

/-- `mapME` computes the pure map when every element succeeds with the given
total function. -/
theorem mapME_eq_map {α β : Type} (f : α → Except PyErr β) (g : α → β)
    (l : List α) (h : ∀ x ∈ l, f x = .ok (g x)) : mapME f l = .ok (l.map g) := by
  induction l with
  | nil => rfl
  | cons a as ih =>
      have := h a (List.mem_cons_self a as)
      have hrest := ih (fun x hx => h x (List.mem_cons_of_mem a hx))
      simp [mapME, this, hrest]

/-- The package-facet keys read through the `[0]` convention. -/
def pkgScalarKeys : List String :=
  ["libio_dependents_projects", "libio_dependents_repos", "libio_total_releases",
   "gh_issues_last_month_opened", "gh_issues_last_month_closed",
   "gh_issues_last_year_opened", "gh_issues_last_year_closed",
   "gh_prs_last_month_opened", "gh_prs_last_month_closed",
   "gh_prs_last_year_opened", "gh_prs_last_year_closed",
   "gh_stargazers", "gh_forks", "gh_open_issues_count", "gh_contributors_count",
   "libio_latest_version", "latest_version"]

/-- The version-facet keys read through the `[0]` convention. -/
def verScalarKeys : List String :=
  ["cm_loc", "cm_avg_cyclomatic_complexity", "cm_num_files",
   "pname", "version", "pecosystem"]

/-- Records on which `extract_component_details` is total: a mapping whose
facets are absent-or-mappings, whose multi-valued keys are absent-or
non-empty lists, whose release timestamp is numeric when present, and whose
`used_by` / `cve_ids` tokens are parseable when present. -/
def wfComponent (c : Val) : Bool :=
  isVdict c &&
  (let pkg := getD (asDict c) "package" (.vdict [])
   let ver := getD (asDict c) "version" (.vdict [])
   isVdict pkg &&
   (isVdict ver &&
    (pkgScalarKeys.all (wfScalarKey (asDict pkg)) &&
     (wfIntKey (asDict pkg) "libio_latest_release" &&
      (isVlist (getD (asDict pkg) "libio_usedby" (.vlist [])) &&
       ((asVlist (getD (asDict pkg) "libio_usedby" (.vlist []))).all
          (fun v => exceptOk (parseUsedByE v)) &&
        (verScalarKeys.all (wfScalarKey (asDict ver)) &&
         (isVlist (getD (asDict ver) "cve_ids" (.vlist [])) &&
          (asVlist (getD (asDict ver) "cve_ids" (.vlist []))).all
            (fun v => exceptOk (parseCVEE v))))))))))

/-- The summary `extract_component_details` produces on a well-formed record
(proof helper; `extract_eq_of_wf` shows the agreement with the embedding). -/
def summaryOf (c : Val) : ComponentSummary :=
  let pkg := asDict (getD (asDict c) "package" (.vdict []))
  let ver := asDict (getD (asDict c) "version" (.vdict []))
  { ecosystem := firstD ver "pecosystem" (.vstr "")
    name := firstD ver "pname" (.vstr "")
    version := firstD ver "version" (.vstr "")
    licenses := getD ver "declared_licenses" (.vlist [])
    security := (asVlist (getD ver "cve_ids" (.vlist []))).map cveOf
    osio_user_count := getD ver "osio_usage_count" (.vint 0)
    latest_version := select_latest_version
      (firstD ver "version" (.vstr ""))
      (firstD pkg "libio_latest_version" (.vstr ""))
      (firstD pkg "latest_version" (.vstr ""))
      (firstD ver "pname" (.vstr ""))
    github := {
      dependent_projects := firstD pkg "libio_dependents_projects" (.vint (-1))
      dependent_repos := firstD pkg "libio_dependents_repos" (.vint (-1))
      total_releases := firstD pkg "libio_total_releases" (.vint (-1))
      latest_release_duration :=
        fromtimestampStr (firstIntD pkg "libio_latest_release" 1496302486)
      first_release_date := "Apr 16, 2010"
      issues := ⟨⟨firstD pkg "gh_issues_last_month_opened" (.vint (-1)),
                  firstD pkg "gh_issues_last_month_closed" (.vint (-1))⟩,
                 ⟨firstD pkg "gh_issues_last_year_opened" (.vint (-1)),
                  firstD pkg "gh_issues_last_year_closed" (.vint (-1))⟩⟩
      pull_requests := ⟨⟨firstD pkg "gh_prs_last_month_opened" (.vint (-1)),
                         firstD pkg "gh_prs_last_month_closed" (.vint (-1))⟩,
                        ⟨firstD pkg "gh_prs_last_year_opened" (.vint (-1)),
                         firstD pkg "gh_prs_last_year_closed" (.vint (-1))⟩⟩
      stargazers_count := firstD pkg "gh_stargazers" (.vint (-1))
      forks_count := firstD pkg "gh_forks" (.vint (-1))
      open_issues_count := firstD pkg "gh_open_issues_count" (.vint (-1))
      contributors := firstD pkg "gh_contributors_count" (.vint (-1))
      size := "N/A"
      used_by := (asVlist (getD pkg "libio_usedby" (.vlist []))).map usedByOf }
    code_metrics := ⟨firstD ver "cm_loc" (.vint (-1)),
                     firstD ver "cm_avg_cyclomatic_complexity" (.vint (-1)),
                     firstD ver "cm_num_files" (.vint (-1))⟩ }

theorem extract_eq_of_wf (c : Val) (h : wfComponent c = true) :
    extract_component_details c = .ok (summaryOf c) := by
  simp only [wfComponent, Bool.and_eq_true] at h
  obtain ⟨hc, hpkg, hver, hpkgKeys, hts, hub1, hub2, hverKeys, hcv1, hcv2⟩ := h
  obtain ⟨cd, rfl⟩ := (isVdict_iff _).mp hc
  simp only [asDict] at hpkg hver hpkgKeys hts hub1 hub2 hverKeys hcv1 hcv2
  obtain ⟨pkg, hpkgd⟩ := (isVdict_iff _).mp hpkg
  obtain ⟨ver, hverd⟩ := (isVdict_iff _).mp hver
  rw [hpkgd] at hpkgKeys hts hub1 hub2
  rw [hverd] at hverKeys hcv1 hcv2
  simp only [asDict] at hpkgKeys hts hub1 hub2 hverKeys hcv1 hcv2
  obtain ⟨ub, hubd⟩ := (isVlist_iff _).mp hub1
  rw [hubd] at hub2
  simp only [asVlist] at hub2
  obtain ⟨cv, hcvd⟩ := (isVlist_iff _).mp hcv1
  rw [hcvd] at hcv2
  simp only [asVlist] at hcv2
  have hubmap := mapME_eq_map parseUsedByE usedByOf ub
    (fun x hx => parseUsedByE_eq x (List.all_eq_true.mp hub2 x hx))
  have hcvmap := mapME_eq_map parseCVEE cveOf cv
    (fun x hx => parseCVEE_eq x (List.all_eq_true.mp hcv2 x hx))
  have hk : ∀ k ∈ pkgScalarKeys, wfScalarKey pkg k = true := List.all_eq_true.mp hpkgKeys
  have hv : ∀ k ∈ verScalarKeys, wfScalarKey ver k = true := List.all_eq_true.mp hverKeys
  simp [extract_component_details, facetDictE, hpkgd, hverd, hubd, hcvd,
        hubmap, hcvmap, pyFromtimestampStrE, summaryOf, asDict, asVlist,
        scalarE_wfInt pkg "libio_latest_release" 1496302486 hts,
        scalarE_wf pkg "libio_dependents_projects" (.vint (-1)) (hk _ (by decide)),
        scalarE_wf pkg "libio_dependents_repos" (.vint (-1)) (hk _ (by decide)),
        scalarE_wf pkg "libio_total_releases" (.vint (-1)) (hk _ (by decide)),
        scalarE_wf pkg "gh_issues_last_month_opened" (.vint (-1)) (hk _ (by decide)),
        scalarE_wf pkg "gh_issues_last_month_closed" (.vint (-1)) (hk _ (by decide)),
        scalarE_wf pkg "gh_issues_last_year_opened" (.vint (-1)) (hk _ (by decide)),
        scalarE_wf pkg "gh_issues_last_year_closed" (.vint (-1)) (hk _ (by decide)),
        scalarE_wf pkg "gh_prs_last_month_opened" (.vint (-1)) (hk _ (by decide)),
        scalarE_wf pkg "gh_prs_last_month_closed" (.vint (-1)) (hk _ (by decide)),
        scalarE_wf pkg "gh_prs_last_year_opened" (.vint (-1)) (hk _ (by decide)),
        scalarE_wf pkg "gh_prs_last_year_closed" (.vint (-1)) (hk _ (by decide)),
        scalarE_wf pkg "gh_stargazers" (.vint (-1)) (hk _ (by decide)),
        scalarE_wf pkg "gh_forks" (.vint (-1)) (hk _ (by decide)),
        scalarE_wf pkg "gh_open_issues_count" (.vint (-1)) (hk _ (by decide)),
        scalarE_wf pkg "gh_contributors_count" (.vint (-1)) (hk _ (by decide)),
        scalarE_wf pkg "libio_latest_version" (.vstr "") (hk _ (by decide)),
        scalarE_wf pkg "latest_version" (.vstr "") (hk _ (by decide)),
        scalarE_wf ver "cm_loc" (.vint (-1)) (hv _ (by decide)),
        scalarE_wf ver "cm_avg_cyclomatic_complexity" (.vint (-1)) (hv _ (by decide)),
        scalarE_wf ver "cm_num_files" (.vint (-1)) (hv _ (by decide)),
        scalarE_wf ver "pname" (.vstr "") (hv _ (by decide)),
        scalarE_wf ver "version" (.vstr "") (hv _ (by decide)),
        scalarE_wf ver "pecosystem" (.vstr "") (hv _ (by decide))]

/-! ## Claim C4: extraction is total with documented defaults -/

/-- The fully-defaulted summary of a record whose facets are entirely absent:
-1 sentinels for the numeric popularity/code metrics, 0 for the usage count,
the fixed epoch timestamp for the date field, empty lists for list fields,
empty strings for the name-like fields. -/
def defaultSummary : ComponentSummary :=
  { ecosystem := .vstr ""
    name := .vstr ""
    version := .vstr ""
    licenses := .vlist []
    security := []
    osio_user_count := .vint 0
    latest_version := .vstr ""
    github := {
      dependent_projects := .vint (-1)
      dependent_repos := .vint (-1)
      total_releases := .vint (-1)
      latest_release_duration := fromtimestampStr 1496302486
      first_release_date := "Apr 16, 2010"
      issues := ⟨⟨.vint (-1), .vint (-1)⟩, ⟨.vint (-1), .vint (-1)⟩⟩
      pull_requests := ⟨⟨.vint (-1), .vint (-1)⟩, ⟨.vint (-1), .vint (-1)⟩⟩
      stargazers_count := .vint (-1)
      forks_count := .vint (-1)
      open_issues_count := .vint (-1)
      contributors := .vint (-1)
      size := "N/A"
      used_by := [] }
    code_metrics := ⟨.vint (-1), .vint (-1), .vint (-1)⟩ }

/-- C4 (amended): extraction is total on every record whose present
multi-valued fields are non-empty lists, whose present `used_by`/`cve_ids`
tokens are well-formed, and whose present release timestamp is numeric; and
on the record with both facets entirely absent every declared field of the
summary holds its documented default. -/
theorem c4_extraction_total (c : Val) (h : wfComponent c = true) :
    (∃ s, extract_component_details c = .ok s)
    ∧ extract_component_details (.vdict []) = .ok defaultSummary := by
  refine ⟨⟨summaryOf c, extract_eq_of_wf c h⟩, ?_⟩
  decide

/-- Witness for C4: a record missing the whole version facet and most of the
package facet still extracts. -/
theorem c4_extraction_total_witness :
    ((∃ s, extract_component_details
        (.vdict [("package", .vdict [("gh_forks", .vlist [.vint 7])])]) = .ok s)
     ∧ extract_component_details (.vdict []) = .ok defaultSummary) :=
  c4_extraction_total
    (.vdict [("package", .vdict [("gh_forks", .vlist [.vint 7])])]) (by decide)

/-- C4 counterexample: a record satisfying the claim's literal hypotheses
(the only present multi-valued field holds a non-empty list; no used_by or
cve_ids tokens are present) on which extraction nevertheless raises, because
`datetime.datetime.fromtimestamp` rejects the non-numeric first element of a
present `libio_latest_release`. -/
theorem c4_counterexample :
    dictGet [("libio_latest_release", Val.vlist [.vstr "x"])] "libio_latest_release"
      = some (.vlist [.vstr "x"])
    ∧ extract_component_details
        (.vdict [("package", .vdict [("libio_latest_release", .vlist [.vstr "x"])])])
      = .error .runtimeError := by
  decide

/-! ## Claim C3: multi-valued fields are reduced to scalars -/

/-- C3 counterexample: the usage-count field is the one read without `[0]`
(line 99): a stored `[5]` survives as the whole list `[5]`, not as its first
element `5`. -/
theorem c3_counterexample :
    (extract_component_details
      (.vdict [("version", .vdict [("osio_usage_count", .vlist [.vint 5])])])).map
      (fun s => s.osio_user_count) = .ok (.vlist [.vint 5])
    ∧ Val.vlist [.vint 5] ≠ .vint 5 := by
  decide

/-- C3 (amended): on every well-formed record, each multi-valued field read
through the `[0]` convention is reduced in the summary to exactly one scalar
(the first element of the stored list, or the documented default when
absent) — except the usage-count field `osio_usage_count`, which is passed
through unreduced (the whole stored value, defaulting to 0 when absent). -/
theorem c3_scalar_reduction (c : Val) (h : wfComponent c = true) :
    ∀ s, extract_component_details c = .ok s →
      (let pkg := asDict (getD (asDict c) "package" (.vdict []))
       let ver := asDict (getD (asDict c) "version" (.vdict []))
       s.github.dependent_projects = firstD pkg "libio_dependents_projects" (.vint (-1))
       ∧ s.github.dependent_repos = firstD pkg "libio_dependents_repos" (.vint (-1))
       ∧ s.github.total_releases = firstD pkg "libio_total_releases" (.vint (-1))
       ∧ s.github.latest_release_duration
           = fromtimestampStr (firstIntD pkg "libio_latest_release" 1496302486)
       ∧ s.github.issues.month.opened = firstD pkg "gh_issues_last_month_opened" (.vint (-1))
       ∧ s.github.issues.month.closed = firstD pkg "gh_issues_last_month_closed" (.vint (-1))
       ∧ s.github.issues.year.opened = firstD pkg "gh_issues_last_year_opened" (.vint (-1))
       ∧ s.github.issues.year.closed = firstD pkg "gh_issues_last_year_closed" (.vint (-1))
       ∧ s.github.pull_requests.month.opened = firstD pkg "gh_prs_last_month_opened" (.vint (-1))
       ∧ s.github.pull_requests.month.closed = firstD pkg "gh_prs_last_month_closed" (.vint (-1))
       ∧ s.github.pull_requests.year.opened = firstD pkg "gh_prs_last_year_opened" (.vint (-1))
       ∧ s.github.pull_requests.year.closed = firstD pkg "gh_prs_last_year_closed" (.vint (-1))
       ∧ s.github.stargazers_count = firstD pkg "gh_stargazers" (.vint (-1))
       ∧ s.github.forks_count = firstD pkg "gh_forks" (.vint (-1))
       ∧ s.github.open_issues_count = firstD pkg "gh_open_issues_count" (.vint (-1))
       ∧ s.github.contributors = firstD pkg "gh_contributors_count" (.vint (-1))
       ∧ s.code_metrics.code_lines = firstD ver "cm_loc" (.vint (-1))
       ∧ s.code_metrics.average_cyclomatic_complexity
           = firstD ver "cm_avg_cyclomatic_complexity" (.vint (-1))
       ∧ s.code_metrics.total_files = firstD ver "cm_num_files" (.vint (-1))
       ∧ s.name = firstD ver "pname" (.vstr "")
       ∧ s.version = firstD ver "version" (.vstr "")
       ∧ s.ecosystem = firstD ver "pecosystem" (.vstr "")
       ∧ s.latest_version = select_latest_version
           (firstD ver "version" (.vstr "")) (firstD pkg "libio_latest_version" (.vstr ""))
           (firstD pkg "latest_version" (.vstr "")) (firstD ver "pname" (.vstr ""))
       ∧ s.licenses = getD ver "declared_licenses" (.vlist [])
       ∧ s.osio_user_count = getD ver "osio_usage_count" (.vint 0)) := by
  intro s hs
  rw [extract_eq_of_wf c h] at hs
  cases hs
  simp [summaryOf]

/-- Witness for C3 at a record whose stored multi-valued fields hold
two-element lists (the second elements are dropped) and whose usage count is
a stored list (passed through whole). -/
theorem c3_scalar_reduction_witness :
    (extract_component_details
        (.vdict [("package", .vdict [("gh_forks", .vlist [.vint 7, .vint 8])]),
               ("version", .vdict [("osio_usage_count", .vlist [.vint 5])])])).map
      (fun s => (s.github.forks_count, s.osio_user_count))
      = .ok (.vint 7, .vlist [.vint 5]) := by
  have h := c3_scalar_reduction
    (.vdict [("package", .vdict [("gh_forks", .vlist [.vint 7, .vint 8])]),
             ("version", .vdict [("osio_usage_count", .vlist [.vint 5])])])
    (by decide)
  obtain ⟨s, hs⟩ := (c4_extraction_total
    (.vdict [("package", .vdict [("gh_forks", .vlist [.vint 7, .vint 8])]),
             ("version", .vdict [("osio_usage_count", .vlist [.vint 5])])])
    (by decide)).1
  have h2 := h s hs
  rw [hs]
  obtain ⟨_, _, _, _, _, _, _, _, _, _, _, _, _, hforks,
          _, _, _, _, _, _, _, _, _, _, hosio⟩ := h2
  simp only [Except.map, hforks, hosio]
  decide

/-! ## Claim C9: per-dependency fault isolation in get_dependency_data -/

theorem gddLoop_eq_filterMap (g : String → Val → Val → GraphOutcome)
    (eco : String) (resolved : List ResolvedDep) :
    gddLoop g eco resolved = resolved.filterMap (fetchOne g eco) := by
  induction resolved with
  | nil => rfl
  | cons e rest ih =>
      by_cases hnull : e.package = .vnull ∨ e.version = .vnull
      · simp [gddLoop, fetchOne, hnull, ih]
      · cases hr : graphResultRecord (g eco e.package e.version) with
        | none => simp [gddLoop, fetchOne, hnull, hr, ih]
        | some r => simp [gddLoop, fetchOne, hnull, hr, ih]

/-- C9: `get_dependency_data` processes the dependencies independently and in
request order — the accumulated result is exactly the in-order concatenation
of the per-dependency contributions — and a dependency whose metadata-store
call raises a transport error, or returns a non-200 status, contributes
nothing while every other dependency is still processed. -/
theorem c9_fault_isolation (g : String → Val → Val → GraphOutcome)
    (eco : String) (resolved : List ResolvedDep) :
    get_dependency_data g resolved eco
      = some ⟨resolved.filterMap (fetchOne g eco)⟩
    ∧ (∀ elem : ResolvedDep, g eco elem.package elem.version = .raised →
        fetchOne g eco elem = none)
    ∧ (∀ (elem : ResolvedDep) (code : Nat) (body : Val), code ≠ 200 →
        g eco elem.package elem.version = .response code body →
        fetchOne g eco elem = none) := by
  refine ⟨?_, ?_, ?_⟩
  · rw [get_dependency_data, gddLoop_eq_filterMap]
  · intro elem h
    unfold fetchOne
    split
    · rfl
    · rw [h]; rfl
  · intro elem code body hcode h
    unfold fetchOne
    split
    · rfl
    · rw [h]
      simp [graphResultRecord, hcode]

/-- A concrete graph oracle for witnesses: raises for package "bad", answers
200 with a one-record payload otherwise. -/
def gWitness : String → Val → Val → GraphOutcome :=
  fun _ p _ =>
    if p = .vstr "bad" then .raised
    else .response 200 (.vdict [("result",
      .vdict [("data", .vlist [.vdict []])])])

/-- Witness for C9: with the middle dependency raising, the other two are
still fetched, in order. -/
theorem c9_fault_isolation_witness :
    get_dependency_data gWitness
        [⟨.vstr "a", .vstr "1"⟩, ⟨.vstr "bad", .vstr "2"⟩, ⟨.vstr "c", .vstr "3"⟩] "pypi"
      = some ⟨[.vdict [("data", .vlist [.vdict []])],
               .vdict [("data", .vlist [.vdict []])]]⟩
    ∧ fetchOne gWitness "pypi" ⟨.vstr "bad", .vstr "2"⟩ = none := by
  have h := c9_fault_isolation gWitness "pypi"
      [⟨.vstr "a", .vstr "1"⟩, ⟨.vstr "bad", .vstr "2"⟩, ⟨.vstr "c", .vstr "3"⟩]
  exact ⟨h.1.trans (by decide), h.2.1 ⟨.vstr "bad", .vstr "2"⟩ (by decide)⟩

/-! ## Claim C10: one report per manifest -/

theorem executeStep_snoc (g : String → Val → Val → GraphOutcome)
    (lic : List LicenseScoringInput → Option Val) (csl : Val) (persist : Bool)
    (acc : List ManifestData) (e : BatchEntry) (acc2 : List ManifestData)
    (h : executeStep g lic csl persist acc e = .ok acc2) :
    ∃ m, acc2 = acc ++ [m] := by
  unfold executeStep at h
  simp only [get_dependency_data] at h
  cases hagg : aggregate_stack_data lic ⟨gddLoop g e.ecosystem e.resolved⟩
      e.manifest_file (pyLower e.ecosystem) e.resolved e.manifest_file_path persist with
  | error err => rw [hagg] at h; simp at h
  | ok o =>
      rw [hagg] at h
      simp only [except_bind_ok] at h
      cases hm : mergeCurrentStackLicense csl o with
      | error err => rw [hm] at h; simp at h
      | ok o2 =>
          rw [hm] at h
          simp only [except_bind_ok] at h
          cases h
          exact ⟨o2, rfl⟩

theorem executeFold_length (g : String → Val → Val → GraphOutcome)
    (lic : List LicenseScoringInput → Option Val) (csl : Val) (persist : Bool)
    (entries : List BatchEntry) :
    ∀ acc sd, foldlME (executeStep g lic csl persist) acc entries = .ok sd →
      sd.length = acc.length + entries.length := by
  induction entries with
  | nil =>
      intro acc sd h
      cases h
      simp
  | cons e rest ih =>
      intro acc sd h
      unfold foldlME at h
      cases hstep : executeStep g lic csl persist acc e with
      | error err => rw [hstep] at h; simp at h
      | ok acc2 =>
          rw [hstep] at h
          simp only [except_bind_ok] at h
          obtain ⟨m, rfl⟩ := executeStep_snoc g lic csl persist acc e acc2 hstep
          have := ih (acc ++ [m]) sd h
          simp only [List.length_append, List.length_cons, List.length_nil] at this ⊢
          omega

/-- C10: `get_dependency_data` never returns `None` (it always returns a
record with a result list), so the guard in `execute` always passes and, on
every run that returns a result, each entry of the batch contributes exactly
one manifest report: the length of `stack_data` equals the number of
manifests in the batch. -/
theorem c10_stack_data_length (g : String → Val → Val → GraphOutcome)
    (lic : List LicenseScoringInput → Option Val) (db : Except String Unit)
    (t0 t1 : String) (aggregated : Batch) (persist : Bool) :
    (∀ (resolved : List ResolvedDep) (eco : String),
       (get_dependency_data g resolved eco).isSome = true)
    ∧ (∀ out, StackAggregator.execute g lic db t0 t1 aggregated persist = .ok out →
        (match out with
         | .success _ sd => sd.stack_data.length = aggregated.result.length
         | .databaseError _ _ => True)) := by
  refine ⟨fun resolved eco => rfl, ?_⟩
  intro out h
  unfold StackAggregator.execute at h
  cases hc : vgetE aggregated.current_stack_license "1" (.vdict []) with
  | error e => rw [hc] at h; simp at h
  | ok csl =>
      rw [hc] at h
      simp only [except_bind_ok] at h
      cases hsd : foldlME (executeStep g lic csl persist) [] aggregated.result with
      | error e2 => rw [hsd] at h; simp at h
      | ok sd =>
          rw [hsd] at h
          simp only [except_bind_ok] at h
          have hlen := executeFold_length g lic csl persist aggregated.result [] sd hsd
          simp only [List.length_nil, Nat.zero_add] at hlen
          by_cases hp : persist
          · rw [if_pos hp] at h
            cases db with
            | ok u => cases h; simpa using hlen
            | error msg => cases h; trivial
          · rw [if_neg hp] at h
            cases h
            simpa using hlen

/-- A one-manifest batch with an empty resolved list, for the C10 witness. -/
def cBatch : Batch :=
  ⟨.vstr "id", .vdict [], [⟨[], "PyPI", "requirements.txt", "/p/requirements.txt"⟩]⟩

/-- The manifest report `execute` produces for `cBatch` in dry-run mode. -/
def cManifest : ManifestData :=
  { manifest_name := "requirements.txt"
    manifest_file_path := "/p/requirements.txt"
    user_stack_info := {
      ecosystem := "pypi"
      analyzed_dependencies_count := 0
      analyzed_dependencies := []
      unknown_dependencies := []
      unknown_dependencies_count := 0
      recommendation_ready := true
      total_licenses := 0
      distinct_licenses := []
      stack_license_conflict := .vnull
      dependencies := []
      license_analysis := .vdict [("current_stack_license", .vdict [])] } }

/-- Witness for C10 at `cBatch`: one manifest in, one report out. -/
theorem c10_stack_data_length_witness :
    StackAggregator.execute gWitness (fun _ => none) (.ok ()) "t0" "t1" cBatch false
      = .ok (.success (.vstr "id") ⟨[cManifest], ⟨"t0", "t1", "v1"⟩, "None:None:None"⟩)
    ∧ ([cManifest].length = cBatch.result.length) := by
  have hrun : StackAggregator.execute gWitness (fun _ => none) (.ok ()) "t0" "t1" cBatch false
      = .ok (.success (.vstr "id") ⟨[cManifest], ⟨"t0", "t1", "v1"⟩, "None:None:None"⟩) := by
    decide
  refine ⟨hrun, ?_⟩
  have := (c10_stack_data_length gWitness (fun _ => none) (.ok ()) "t0" "t1" cBatch false).2
    _ hrun
  simpa using this

/-! ## Aggregate inversion (claims C1, C2, C8) -/

/-- Inversion of a successful `aggregate_stack_data` run: the intermediate
values and the exact shape of the produced report. -/
theorem aggregate_ok_inv (lic : List LicenseScoringInput → Option Val)
    (stack : GDRes) (mf eco : String) (deps : List ResolvedDep) (path : String)
    (persist : Bool) (rep : ManifestData)
    (h : aggregate_stack_data lic stack mf eco deps path persist = .ok rep) :
    ∃ d0 lics lsl la_v conflict_v ds,
      foldlME aggregateStep ([], [], []) stack.result = .ok (d0, lics, lsl)
      ∧ ((persist = true ∧ ∃ la,
            perform_license_analysis lic lsl d0 = .ok (la, ds)
            ∧ la_v = la.toVal
            ∧ conflict_v = Val.vbool (la.f8a_stack_licenses.length == 0))
         ∨ (persist = false ∧ la_v = .vdict [] ∧ conflict_v = .vnull ∧ ds = d0))
      ∧ rep = assembleReport mf path eco deps ds (pySetList lics) conflict_v la_v := by
  unfold aggregate_stack_data at h
  cases hacc : foldlME aggregateStep ([], [], []) stack.result with
  | error e => rw [hacc] at h; simp at h
  | ok acc =>
      obtain ⟨d0, lics, lsl⟩ := acc
      rw [hacc] at h
      simp only [except_bind_ok] at h
      cases hh1 : ensureHashableE lics with
      | error e => rw [hh1] at h; simp at h
      | ok u1 =>
          rw [hh1] at h
          simp only [except_bind_ok] at h
          cases persist with
          | true =>
              rw [if_pos rfl] at h
              cases hperf : perform_license_analysis lic lsl d0 with
              | error e => rw [hperf] at h; simp at h
              | ok pr =>
                  obtain ⟨la, ds2⟩ := pr
                  rw [hperf] at h
                  simp only [except_bind_ok, except_pure_eq] at h
                  cases hh2 : ensureHashablePairsE
                      (deps.map fun d => (d.package, d.version)) with
                  | error e => rw [hh2] at h; simp at h
                  | ok u2 =>
                      rw [hh2] at h
                      simp only [except_bind_ok] at h
                      cases hh3 : ensureHashablePairsE
                          (ds2.map fun s => (s.name, s.version)) with
                      | error e => rw [hh3] at h; simp at h
                      | ok u3 =>
                          rw [hh3] at h
                          simp only [except_bind_ok] at h
                          cases h
                          exact ⟨d0, lics, lsl, la.toVal,
                            Val.vbool (la.f8a_stack_licenses.length == 0), ds2, rfl,
                            Or.inl ⟨rfl, la, hperf, rfl, rfl⟩, rfl⟩
          | false =>
              rw [if_neg (by simp)] at h
              simp only [except_pure_eq, except_bind_ok] at h
              cases hh2 : ensureHashablePairsE
                  (deps.map fun d => (d.package, d.version)) with
              | error e => rw [hh2] at h; simp at h
              | ok u2 =>
                  rw [hh2] at h
                  simp only [except_bind_ok] at h
                  cases hh3 : ensureHashablePairsE
                      (d0.map fun s => (s.name, s.version)) with
                  | error e => rw [hh3] at h; simp at h
                  | ok u3 =>
                      rw [hh3] at h
                      simp only [except_bind_ok] at h
                      cases h
                      exact ⟨d0, lics, lsl, .vdict [], .vnull, d0, rfl,
                        Or.inr ⟨rfl, rfl, rfl, rfl⟩, rfl⟩

/-! ## Claim C2: the stack-license-conflict flag -/

theorem length_beq_zero_eq_isEmpty {α : Type} (l : List α) :
    (l.length == 0) = l.isEmpty := by
  cases l <;> rfl

/-- C2: for every manifest report built with license analysis enabled
(`persist = true`), the `stack_license_conflict` flag of the report is the
boolean that is true exactly when the resolved stack-license list
`f8a_stack_licenses` stored in the report's `license_analysis` record is
empty; for every report built with `persist = false` the flag is `None`. -/
theorem c2_stack_license_conflict (lic : List LicenseScoringInput → Option Val)
    (stack : GDRes) (mf eco : String) (deps : List ResolvedDep) (path : String) :
    (∀ rep, aggregate_stack_data lic stack mf eco deps path true = .ok rep →
       ∃ f8a : List Val,
         getD (asDict rep.user_stack_info.license_analysis) "f8a_stack_licenses" .vnull
           = .vlist f8a
         ∧ rep.user_stack_info.stack_license_conflict = .vbool f8a.isEmpty
         ∧ (rep.user_stack_info.stack_license_conflict = .vbool true ↔ f8a = []))
    ∧ (∀ rep, aggregate_stack_data lic stack mf eco deps path false = .ok rep →
       rep.user_stack_info.stack_license_conflict = .vnull) := by
  constructor
  · intro rep h
    obtain ⟨d0, lics, lsl, la_v, conflict_v, ds, hacc, hbr, hrep⟩ :=
      aggregate_ok_inv lic stack mf eco deps path true rep h
    rcases hbr with ⟨_, la, hperf, hla, hconf⟩ | ⟨hfalse, _⟩
    · subst hrep hla hconf
      refine ⟨la.f8a_stack_licenses, ?_, ?_, ?_⟩
      · simp [assembleReport, LicenseAnalysisOut.toVal, asDict, getD, dictGet]
      · simp [assembleReport, length_beq_zero_eq_isEmpty]
      · simp only [assembleReport, length_beq_zero_eq_isEmpty]
        constructor
        · intro hx
          have hb : la.f8a_stack_licenses.isEmpty = true := by
            have := Val.vbool.injEq (la.f8a_stack_licenses.isEmpty) true ▸ hx
            simpa using hx
          exact List.isEmpty_iff.mp hb
        · intro hx
          rw [hx]
          rfl
    · exact absurd hfalse (by simp)
  · intro rep h
    obtain ⟨d0, lics, lsl, la_v, conflict_v, ds, hacc, hbr, hrep⟩ :=
      aggregate_ok_inv lic stack mf eco deps path false rep h
    rcases hbr with ⟨htrue, _⟩ | ⟨_, _, hconf, _⟩
    · exact absurd htrue (by simp)
    · subst hrep hconf
      rfl

/-- The report the C2 witness run produces: an empty stack with a license
service answering the empty mapping, so no stack license is resolved and the
conflict flag is raised. -/
def c2Rep : ManifestData :=
  { manifest_name := "m"
    manifest_file_path := "/m"
    user_stack_info := {
      ecosystem := "py"
      analyzed_dependencies_count := 0
      analyzed_dependencies := []
      unknown_dependencies := []
      unknown_dependencies_count := 0
      recommendation_ready := true
      total_licenses := 0
      distinct_licenses := []
      stack_license_conflict := .vbool true
      dependencies := []
      license_analysis := .vdict [("status", .vnull),
        ("f8a_stack_licenses", .vlist []), ("unknown_licenses", .vlist []),
        ("conflict_packages", .vlist []), ("outlier_packages", .vlist [])] } }

/-- Witness for C2 at a concrete persisted run. -/
theorem c2_stack_license_conflict_witness :
    aggregate_stack_data (fun _ => some (.vdict [])) ⟨[]⟩ "m" "py" [] "/m" true = .ok c2Rep
    ∧ ∃ f8a : List Val,
        getD (asDict c2Rep.user_stack_info.license_analysis) "f8a_stack_licenses" .vnull
          = .vlist f8a
        ∧ c2Rep.user_stack_info.stack_license_conflict = .vbool f8a.isEmpty
        ∧ (c2Rep.user_stack_info.stack_license_conflict = .vbool true ↔ f8a = []) := by
  have hrun : aggregate_stack_data (fun _ => some (.vdict [])) ⟨[]⟩ "m" "py" [] "/m" true
      = .ok c2Rep := by decide
  exact ⟨hrun,
    (c2_stack_license_conflict (fun _ => some (.vdict [])) ⟨[]⟩ "m" "py" []
      "/m").1 c2Rep hrun⟩

/-! ## Claim C1: set reconciliation of analyzed and unknown dependencies -/

/-- The (name, version) pairs of a report's analyzed dependencies. -/
def analyzedPairs (u : UserStackInfo) : List (Val × Val) :=
  u.analyzed_dependencies.map (fun s => (s.name, s.version))

/-- The (name, version) pairs of a report's unknown dependencies. -/
def unknownPairs (u : UserStackInfo) : List (Val × Val) :=
  u.unknown_dependencies.map (fun d => (d.name, d.version))

/-- The (package, version) pairs of the requested dependency list. -/
def requestedPairs (deps : List ResolvedDep) : List (Val × Val) :=
  deps.map (fun d => (d.package, d.version))

theorem mem_unknownDepsOf_pairs (deps : List ResolvedDep)
    (ds : List ComponentSummary) (p : Val × Val) :
    p ∈ (unknownDepsOf deps ds).map (fun d => (d.name, d.version))
      ↔ p ∈ requestedPairs deps ∧ p ∉ ds.map (fun s => (s.name, s.version)) := by
  simp only [unknownDepsOf, requestedPairs, pySetList, List.map_map, List.mem_map,
             List.mem_filter, List.mem_dedup]
  constructor
  · rintro ⟨q, ⟨hq1, hq2⟩, rfl⟩
    simp only [Function.comp] at hq2 ⊢
    refine ⟨hq1, ?_⟩
    simpa using hq2
  · rintro ⟨h1, h2⟩
    exact ⟨p, ⟨h1, by simpa using h2⟩, rfl⟩

/-- C1 (amended): in every manifest report produced by
`aggregate_stack_data`, the analyzed and unknown (name, version) sets are
disjoint, their union equals the requested set united with the analyzed set,
and whenever every analyzed pair comes from the requested list the union is
the requested set exactly. -/
theorem c1_reconciliation (lic : List LicenseScoringInput → Option Val)
    (stack : GDRes) (mf eco : String) (deps : List ResolvedDep) (path : String)
    (persist : Bool) (rep : ManifestData)
    (h : aggregate_stack_data lic stack mf eco deps path persist = .ok rep) :
    (∀ p, p ∈ analyzedPairs rep.user_stack_info → p ∉ unknownPairs rep.user_stack_info)
    ∧ (analyzedPairs rep.user_stack_info ++ unknownPairs rep.user_stack_info).toFinset
        = (requestedPairs deps).toFinset ∪ (analyzedPairs rep.user_stack_info).toFinset
    ∧ ((∀ p, p ∈ analyzedPairs rep.user_stack_info → p ∈ requestedPairs deps) →
        (analyzedPairs rep.user_stack_info ++ unknownPairs rep.user_stack_info).toFinset
          = (requestedPairs deps).toFinset) := by
  obtain ⟨d0, lics, lsl, la_v, conflict_v, ds, hacc, hbr, hrep⟩ :=
    aggregate_ok_inv lic stack mf eco deps path persist rep h
  subst hrep
  have han : analyzedPairs (assembleReport mf path eco deps ds (pySetList lics)
      conflict_v la_v).user_stack_info = ds.map (fun s => (s.name, s.version)) := rfl
  have hun : unknownPairs (assembleReport mf path eco deps ds (pySetList lics)
      conflict_v la_v).user_stack_info
      = (unknownDepsOf deps ds).map (fun d => (d.name, d.version)) := rfl
  rw [han, hun]
  refine ⟨?_, ?_, ?_⟩
  · intro p hp hup
    exact ((mem_unknownDepsOf_pairs deps ds p).mp hup).2 hp
  · ext p
    simp only [List.mem_toFinset, List.mem_append, Finset.mem_union,
               mem_unknownDepsOf_pairs]
    tauto
  · intro hsub
    ext p
    simp only [List.mem_toFinset, List.mem_append, mem_unknownDepsOf_pairs]
    constructor
    · rintro (hp | ⟨hp, _⟩)
      · exact hsub p hp
      · exact hp
    · intro hp
      by_cases hin : p ∈ ds.map (fun s => (s.name, s.version))
      · exact Or.inl hin
      · exact Or.inr ⟨hp, hin⟩

/-- C1 counterexample: a stack record whose (name, version) is not among the
requested dependencies.  The analyzed set then contains a pair outside the
requested set, the unknown set is empty, and the union differs from the
requested set — the claimed set equality fails. -/
theorem c1_counterexample :
    (aggregate_stack_data (fun _ => none)
        ⟨[.vdict [("data", .vlist [.vdict [("version", .vdict [
            ("pname", .vlist [.vstr "x"]), ("version", .vlist [.vstr "1"])])]])]]⟩
        "m" "py" [] "/m" false).map
      (fun rep => (analyzedPairs rep.user_stack_info, unknownPairs rep.user_stack_info))
      = .ok (([(Val.vstr "x", Val.vstr "1")] : List (Val × Val)),
             ([] : List (Val × Val)))
    ∧ (([(Val.vstr "x", Val.vstr "1")] ++ ([] : List (Val × Val))).toFinset
        ≠ (requestedPairs []).toFinset) := by
  constructor
  · decide
  · decide

/-- The requested list for the C1 witness: one dependency found in the graph
and one unknown. -/
def c1Deps : List ResolvedDep := [⟨.vstr "x", .vstr "1"⟩, ⟨.vstr "y", .vstr "2"⟩]

/-- The fetched stack for the C1 witness: only `x:1` has a record. -/
def c1Stack : GDRes :=
  ⟨[.vdict [("data", .vlist [.vdict [("version", .vdict [
      ("pname", .vlist [.vstr "x"]), ("version", .vlist [.vstr "1"])])]])]]⟩

/-- The summary extracted for `x:1` in the C1 witness run. -/
def c1Summary : ComponentSummary :=
  { defaultSummary with name := .vstr "x", version := .vstr "1",
                        latest_version := .vstr "1" }

/-- The report of the C1 witness run. -/
def c1Rep : ManifestData :=
  { manifest_name := "m"
    manifest_file_path := "/m"
    user_stack_info := {
      ecosystem := "py"
      analyzed_dependencies_count := 1
      analyzed_dependencies := [c1Summary]
      unknown_dependencies := [⟨.vstr "y", .vstr "2"⟩]
      unknown_dependencies_count := 1
      recommendation_ready := true
      total_licenses := 0
      distinct_licenses := []
      stack_license_conflict := .vnull
      dependencies := c1Deps
      license_analysis := .vdict [] } }

/-- Witness for C1 at a concrete run where the analyzed pairs do come from
the requested list: the union is exactly the requested set and the two sets
are disjoint. -/
theorem c1_reconciliation_witness :
    aggregate_stack_data (fun _ => none) c1Stack "m" "py" c1Deps "/m" false = .ok c1Rep
    ∧ (analyzedPairs c1Rep.user_stack_info ++ unknownPairs c1Rep.user_stack_info).toFinset
        = (requestedPairs c1Deps).toFinset := by
  have hrun : aggregate_stack_data (fun _ => none) c1Stack "m" "py" c1Deps "/m" false
      = .ok c1Rep := by decide
  refine ⟨hrun, ?_⟩
  exact (c1_reconciliation (fun _ => none) c1Stack "m" "py" c1Deps "/m" false
    c1Rep hrun).2.2 (by decide)

/-! ## License-response well-formedness and perform totality (claims C7, C8) -/

/-- Erase the attached license analysis: the summary as it was before
`perform_license_analysis` mutated it. -/
def stripLA (s : ComponentSummary) : ComponentSummary :=
  { s with license_analysis := none }

/-- Well-formedness of a parsed license-service response body: every shape
`perform_license_analysis` and the three extraction helpers read. -/
def wfLicResp (v : Val) : Bool :=
  isVdict v &&
  (isVlist (getD (asDict v) "packages" (.vlist [])) &&
   ((asVlist (getD (asDict v) "packages" (.vlist []))).all isVdict &&
    ((!pyTruthy v || unknownRespWF v) &&
     ((!pyTruthy v ||
       (isVlist (getD (asDict v) "conflict_packages" (.vlist [])) &&
        (asVlist (getD (asDict v) "conflict_packages" (.vlist []))).all
          (fun e => isVdict e && ((vkeys (asDict e)).length == 2)))) &&
      (!pyTruthy v || isVdict (getD (asDict v) "outlier_packages" (.vdict [])))))))

/-- The license oracle outcome is benign: a transport failure (caught by the
code) or a well-formed body. -/
def licRespOK : Option Val → Bool
  | none => true
  | some v => wfLicResp v

/-- The exact result of attaching one response component onto the dependency
list. -/
theorem attachLicenseAnalysis_ok (comp : Val) (hc : isVdict comp = true)
    (ds : List ComponentSummary) :
    attachLicenseAnalysis comp ds = .ok (ds.map (fun dep =>
      if dep.name = getD (asDict comp) "package" (.vstr "")
         ∧ dep.version = getD (asDict comp) "version" (.vstr "")
      then
        { dep with
          license_analysis := some (getD (asDict comp) "license_analysis" (.vdict [])) }
      else dep)) := by
  obtain ⟨cd, rfl⟩ := (isVdict_iff _).mp hc
  apply mapME_eq_map
  intro dep _
  by_cases hmatch : dep.name = getD cd "package" (.vstr "")
      ∧ dep.version = getD cd "version" (.vstr "")
  · simp [asDict, hmatch]
  · simp [asDict, hmatch]

theorem stripLA_attach (comp : Val) (ds ds2 : List ComponentSummary)
    (hc : isVdict comp = true)
    (h : attachLicenseAnalysis comp ds = .ok ds2) :
    ds2.map stripLA = ds.map stripLA := by
  rw [attachLicenseAnalysis_ok comp hc ds] at h
  cases h
  rw [List.map_map]
  apply List.map_congr_left
  intro dep _
  by_cases hmatch : dep.name = getD (asDict comp) "package" (.vstr "")
      ∧ dep.version = getD (asDict comp) "version" (.vstr "")
  · simp [Function.comp, hmatch, stripLA]
  · simp [Function.comp, hmatch]

theorem attachFold_strip (comps : List Val) (h : ∀ c ∈ comps, isVdict c = true) :
    ∀ ds, ∃ ds2,
      foldlME (fun ds c => attachLicenseAnalysis c ds) ds comps = .ok ds2
      ∧ ds2.map stripLA = ds.map stripLA := by
  induction comps with
  | nil => exact fun ds => ⟨ds, rfl, rfl⟩
  | cons c rest ih =>
      intro ds
      have hc := h c (List.mem_cons_self c rest)
      obtain ⟨ds1, hone⟩ : ∃ ds1, attachLicenseAnalysis c ds = .ok ds1 :=
        ⟨_, attachLicenseAnalysis_ok c hc ds⟩
      obtain ⟨ds2, hfold, hstrip⟩ := ih (fun x hx => h x (List.mem_cons_of_mem c hx)) ds1
      refine ⟨ds2, ?_, ?_⟩
      · simp [foldlME, hone, hfold]
      · rw [hstrip]
        exact stripLA_attach c ds ds1 hc hone

theorem exists_ok_of_isTwoBucket (e : Except PyErr Val)
    (h : isTwoBucketRecord e = true) : ∃ u, e = .ok u := by
  cases e with
  | ok v => exact ⟨v, rfl⟩
  | error e2 => simp [isTwoBucketRecord] at h

/-- Totality of `_extract_unknown_licenses` under the benign shapes. -/
theorem extract_unknown_ok (v : Val)
    (h : (!pyTruthy v || unknownRespWF v) = true) :
    ∃ u, _extract_unknown_licenses v = .ok u := by
  cases htr : pyTruthy v with
  | false => exact ⟨.vlist [], by simp [_extract_unknown_licenses, htr]⟩
  | true =>
      rw [htr] at h
      simp only [Bool.not_true, Bool.false_or] at h
      exact exists_ok_of_isTwoBucket _ ((c6_unknown_shape v).2 h)

theorem conflictPackagesLoop_ok (l : List Val)
    (h : ∀ e ∈ l, isVdict e = true ∧ (vkeys (asDict e)).length = 2) :
    ∃ rs, conflictPackagesLoop l = .ok rs := by
  induction l with
  | nil => exact ⟨[], rfl⟩
  | cons e rest ih =>
      obtain ⟨he1, he2⟩ := h e (List.mem_cons_self e rest)
      obtain ⟨cd, rfl⟩ := (isVdict_iff _).mp he1
      simp only [asDict] at he2
      obtain ⟨k1, k2, hk⟩ := List.length_eq_two.mp he2
      obtain ⟨rs, hrs⟩ := ih (fun x hx => h x (List.mem_cons_of_mem _ hx))
      refine ⟨.vdict [("package1", .vstr k1), ("license1", getD cd k1 .vnull),
                      ("package2", .vstr k2), ("license2", getD cd k2 .vnull)] :: rs, ?_⟩
      simp [conflictPackagesLoop, hk, hrs]

/-- Totality of `_extract_conflict_packages` under the benign shapes. -/
theorem extract_conflict_ok (v : Val) (hv : isVdict v = true)
    (h : (!pyTruthy v ||
       (isVlist (getD (asDict v) "conflict_packages" (.vlist [])) &&
        (asVlist (getD (asDict v) "conflict_packages" (.vlist []))).all
          (fun e => isVdict e && ((vkeys (asDict e)).length == 2)))) = true) :
    ∃ u, _extract_conflict_packages v = .ok u := by
  obtain ⟨vd, rfl⟩ := (isVdict_iff _).mp hv
  cases htr : pyTruthy (Val.vdict vd) with
  | false => exact ⟨.vlist [], by simp [_extract_conflict_packages, htr]⟩
  | true =>
      rw [htr] at h
      simp only [Bool.not_true, Bool.false_or, Bool.and_eq_true] at h
      obtain ⟨h1, h2⟩ := h
      simp only [asDict] at h1 h2
      obtain ⟨entries, hcp⟩ := (isVlist_iff _).mp h1
      rw [hcp] at h2
      simp only [asVlist] at h2
      obtain ⟨rs, hrs⟩ := conflictPackagesLoop_ok entries (by
        intro e he
        have := List.all_eq_true.mp h2 e he
        simp only [Bool.and_eq_true, beq_iff_eq] at this
        exact this)
      exact ⟨.vlist rs, by simp [_extract_conflict_packages, htr, hcp, hrs]⟩

/-- Totality of `_extract_license_outliers` under the benign shapes. -/
theorem extract_outliers_ok (v : Val) (hv : isVdict v = true)
    (h : (!pyTruthy v || isVdict (getD (asDict v) "outlier_packages" (.vdict []))) = true) :
    ∃ u, _extract_license_outliers v = .ok u := by
  obtain ⟨vd, rfl⟩ := (isVdict_iff _).mp hv
  cases htr : pyTruthy (Val.vdict vd) with
  | false => exact ⟨.vlist [], by simp [_extract_license_outliers, htr]⟩
  | true =>
      rw [htr] at h
      simp only [Bool.not_true, Bool.false_or] at h
      simp only [asDict] at h
      obtain ⟨od, hop⟩ := (isVdict_iff _).mp h
      refine ⟨.vlist ((vkeys od).map (fun pkg =>
        .vdict [("package", .vstr pkg), ("license", getD od pkg (.vstr "Unknown"))])), ?_⟩
      simp [_extract_license_outliers, htr, hop]

/-- Totality of `perform_license_analysis` on benign oracle outcomes; the
returned dependency list differs from the input only in the attached
`license_analysis` fields. -/
theorem perform_ok_strip (lic : List LicenseScoringInput → Option Val)
    (lsl : List LicenseScoringInput) (ds : List ComponentSummary)
    (h : licRespOK (lic lsl) = true) :
    ∃ la ds2, perform_license_analysis lic lsl ds = .ok (la, ds2)
      ∧ ds2.map stripLA = ds.map stripLA := by
  cases hl : lic lsl with
  | none =>
      refine ⟨⟨.vnull, [], .vlist [], .vlist [], .vlist []⟩, ds, ?_, rfl⟩
      simp [perform_license_analysis, hl]
  | some v =>
      rw [hl] at h
      simp only [licRespOK, wfLicResp, Bool.and_eq_true] at h
      obtain ⟨h1, h2, h3, h4, h5, h6⟩ := h
      obtain ⟨vd, rfl⟩ := (isVdict_iff _).mp h1
      simp only [asDict] at h2 h3
      obtain ⟨comps, hpk⟩ := (isVlist_iff _).mp h2
      rw [hpk] at h3
      simp only [asVlist] at h3
      obtain ⟨ds2, hfold, hstrip⟩ :=
        attachFold_strip comps (List.all_eq_true.mp h3) ds
      obtain ⟨u, hu⟩ := extract_unknown_ok (.vdict vd) h4
      obtain ⟨cpk, hcpk⟩ := extract_conflict_ok (.vdict vd) (by rfl) h5
      obtain ⟨outl, houtl⟩ := extract_outliers_ok (.vdict vd) (by rfl) h6
      refine ⟨⟨getD vd "status" .vnull,
               if getD vd "stack_license" Val.vnull ≠ Val.vnull
               then [getD vd "stack_license" Val.vnull] else [],
               u, cpk, outl⟩, ds2, ?_, hstrip⟩
      simp [perform_license_analysis, hl, hpk, hfold, hu, hcpk, houtl]

/-! ## Aggregate totality (claim C7) -/

/-- Strengthening of `wfComponent` for use inside `aggregate_stack_data`:
the declared licenses must be a list of hashable values (they are iterated
and placed into `set(licenses)`), and the reduced name and version must be
hashable (they enter the analyzed-pairs set). -/
def wfComponentAgg (c : Val) : Bool :=
  wfComponent c &&
  ((match getD (asDict (getD (asDict c) "version" (.vdict []))) "declared_licenses"
        (.vlist []) with
    | .vlist ls => ls.all pyHashable
    | _ => false) &&
   (pyHashable (firstD (asDict (getD (asDict c) "version" (.vdict []))) "pname" (.vstr "")) &&
    pyHashable (firstD (asDict (getD (asDict c) "version" (.vdict []))) "version" (.vstr ""))))

/-- Well-formedness of one element of the fetched stack list: a mapping whose
truthy `data` value is a non-empty list headed by a well-formed raw
component. -/
def wfStackComponent (c : Val) : Bool :=
  isVdict c &&
  (!pyTruthy (getD (asDict c) "data" .vnull) ||
   (match getD (asDict c) "data" .vnull with
    | .vlist (first :: _) => wfComponentAgg first
    | _ => false))

theorem aggregateStep_ok
    (acc : List ComponentSummary × List Val × List LicenseScoringInput) (c : Val)
    (h : wfStackComponent c = true)
    (hl : acc.2.1.all pyHashable = true)
    (hd : acc.1.all (fun s => pyHashable s.name && pyHashable s.version) = true) :
    ∃ acc2, aggregateStep acc c = .ok acc2
      ∧ acc2.2.1.all pyHashable = true
      ∧ acc2.1.all (fun s => pyHashable s.name && pyHashable s.version) = true := by
  simp only [wfStackComponent, Bool.and_eq_true, Bool.or_eq_true] at h
  obtain ⟨h1, h2⟩ := h
  obtain ⟨cd, rfl⟩ := (isVdict_iff _).mp h1
  simp only [asDict] at h2
  cases htr : pyTruthy (getD cd "data" .vnull) with
  | false =>
      refine ⟨acc, ?_, hl, hd⟩
      simp [aggregateStep, htr]
  | true =>
      rcases h2 with h2 | h2
      · rw [htr] at h2; simp at h2
      · cases hdata : getD cd "data" .vnull with
        | vlist l =>
            cases l with
            | nil => rw [hdata] at h2; simp at h2
            | cons first rest =>
                rw [hdata] at h2
                simp only at h2
                simp only [wfComponentAgg, Bool.and_eq_true] at h2
                obtain ⟨hwf, hlic, hnm, hver⟩ := h2
                have hex := extract_eq_of_wf first hwf
                cases hlicv : getD (asDict (getD (asDict first) "version" (.vdict [])))
                    "declared_licenses" (.vlist []) with
                | vlist ls =>
                    rw [hlicv] at hlic
                    simp only at hlic
                    have hsl : (summaryOf first).licenses = .vlist ls := by
                      simp [summaryOf, hlicv]
                    refine ⟨(acc.1 ++ [summaryOf first], acc.2.1 ++ ls,
                            acc.2.2 ++ [⟨(summaryOf first).name, (summaryOf first).version,
                                         (summaryOf first).licenses⟩]), ?_, ?_, ?_⟩
                    · simp [aggregateStep, htr, hdata, hex, hsl, pyTruthy,
                            pyIndex0E, pyIterE]
                    · simp only [List.all_append, Bool.and_eq_true]
                      exact ⟨hl, hlic⟩
                    · simp only [List.all_append, Bool.and_eq_true]
                      refine ⟨hd, ?_⟩
                      have hn : (summaryOf first).name
                          = firstD (asDict (getD (asDict first) "version" (.vdict [])))
                              "pname" (.vstr "") := rfl
                      have hv : (summaryOf first).version
                          = firstD (asDict (getD (asDict first) "version" (.vdict [])))
                              "version" (.vstr "") := rfl
                      simp [hn, hv, hnm, hver]
                | vnull => rw [hlicv] at hlic; simp at hlic
                | vbool b => rw [hlicv] at hlic; simp at hlic
                | vint n => rw [hlicv] at hlic; simp at hlic
                | vstr s2 => rw [hlicv] at hlic; simp at hlic
                | vdict d2 => rw [hlicv] at hlic; simp at hlic
        | vnull => rw [hdata] at h2; simp at h2
        | vbool b => rw [hdata] at h2; simp at h2
        | vint n => rw [hdata] at h2; simp at h2
        | vstr s2 => rw [hdata] at h2; simp at h2
        | vdict d2 => rw [hdata] at h2; simp at h2

theorem aggregateFold_ok (comps : List Val) (h : ∀ c ∈ comps, wfStackComponent c = true) :
    ∀ acc, acc.2.1.all pyHashable = true →
      acc.1.all (fun s => pyHashable s.name && pyHashable s.version) = true →
      ∃ d lics lsl, foldlME aggregateStep acc comps = .ok (d, lics, lsl)
        ∧ lics.all pyHashable = true
        ∧ d.all (fun s => pyHashable s.name && pyHashable s.version) = true := by
  induction comps with
  | nil => exact fun acc hl hd => ⟨acc.1, acc.2.1, acc.2.2, rfl, hl, hd⟩
  | cons c rest ih =>
      intro acc hl hd
      obtain ⟨acc2, hstep, hl2, hd2⟩ :=
        aggregateStep_ok acc c (h c (List.mem_cons_self c rest)) hl hd
      obtain ⟨d, lics, lsl, hfold, hl3, hd3⟩ :=
        ih (fun x hx => h x (List.mem_cons_of_mem c hx)) acc2 hl2 hd2
      refine ⟨d, lics, lsl, ?_, hl3, hd3⟩
      simp [foldlME, hstep, hfold]

theorem ensureHashableE_ok (l : List Val) (h : l.all pyHashable = true) :
    ensureHashableE l = .ok () := by
  simp [ensureHashableE, h]

theorem ensureHashablePairsE_ok (l : List (Val × Val))
    (h : l.all (fun p => pyHashable p.1 && pyHashable p.2) = true) :
    ensureHashablePairsE l = .ok () := by
  simp only [ensureHashablePairsE]
  rw [if_pos h]

/-- (name, version) pairs are invariant under `stripLA`. -/
theorem pairs_of_strip (ds2 d0 : List ComponentSummary)
    (h : ds2.map stripLA = d0.map stripLA) :
    ds2.map (fun s => (s.name, s.version)) = d0.map (fun s => (s.name, s.version)) := by
  have h2 := congrArg (List.map (fun s => (s.name, s.version))) h
  simpa [List.map_map, Function.comp, stripLA] using h2

/-- Totality of `aggregate_stack_data` on well-formed stacks and benign
license-oracle outcomes; the produced report always stores a mapping under
`license_analysis`. -/
theorem aggregate_ok_total (lic : List LicenseScoringInput → Option Val)
    (stack : GDRes) (mf eco : String) (deps : List ResolvedDep) (path : String)
    (persist : Bool)
    (hstack : ∀ c ∈ stack.result, wfStackComponent c = true)
    (hlic : ∀ lsl, licRespOK (lic lsl) = true)
    (hdeps : deps.all (fun d => pyHashable d.package && pyHashable d.version) = true) :
    ∃ rep, aggregate_stack_data lic stack mf eco deps path persist = .ok rep
      ∧ isVdict rep.user_stack_info.license_analysis = true := by
  obtain ⟨d0, lics, lsl, hfold, hlicsh, hdh⟩ :=
    aggregateFold_ok stack.result hstack ([], [], []) rfl rfl
  have hdeps2 : (deps.map (fun d => (d.package, d.version))).all
      (fun p => pyHashable p.1 && pyHashable p.2) = true := by
    refine List.all_eq_true.mpr ?_
    intro p hp
    obtain ⟨d, hdm, rfl⟩ := List.mem_map.mp hp
    simpa using List.all_eq_true.mp hdeps d hdm
  cases persist with
  | true =>
      obtain ⟨la, ds2, hperf, hstrip⟩ := perform_ok_strip lic lsl d0 (hlic lsl)
      have hds2 : (ds2.map (fun s => (s.name, s.version))).all
          (fun p => pyHashable p.1 && pyHashable p.2) = true := by
        rw [pairs_of_strip ds2 d0 hstrip]
        refine List.all_eq_true.mpr ?_
        intro p hp
        obtain ⟨s, hsm, rfl⟩ := List.mem_map.mp hp
        simpa using List.all_eq_true.mp hdh s hsm
      refine ⟨assembleReport mf path eco deps ds2 (pySetList lics)
        (Val.vbool (la.f8a_stack_licenses.length == 0)) la.toVal, ?_, by
          simp [assembleReport, LicenseAnalysisOut.toVal, isVdict]⟩
      simp [aggregate_stack_data, hfold, ensureHashableE_ok lics hlicsh, hperf,
            ensureHashablePairsE_ok _ hdeps2, ensureHashablePairsE_ok _ hds2]
  | false =>
      have hds2 : (d0.map (fun s => (s.name, s.version))).all
          (fun p => pyHashable p.1 && pyHashable p.2) = true := by
        refine List.all_eq_true.mpr ?_
        intro p hp
        obtain ⟨s, hsm, rfl⟩ := List.mem_map.mp hp
        simpa using List.all_eq_true.mp hdh s hsm
      refine ⟨assembleReport mf path eco deps d0 (pySetList lics) .vnull (.vdict []), ?_,
        by simp [assembleReport, isVdict]⟩
      simp [aggregate_stack_data, hfold, ensureHashableE_ok lics hlicsh,
            ensureHashablePairsE_ok _ hdeps2, ensureHashablePairsE_ok _ hds2]

/-! ## Claim C7: the execute boundary -/

/-- The graph oracle only hands back well-formed stack records. -/
def wfGraph (g : String → Val → Val → GraphOutcome) : Prop :=
  ∀ eco p v r, graphResultRecord (g eco p v) = some r → wfStackComponent r = true

theorem gddLoop_wf (g : String → Val → Val → GraphOutcome) (hg : wfGraph g)
    (eco : String) (resolved : List ResolvedDep) :
    ∀ c ∈ gddLoop g eco resolved, wfStackComponent c = true := by
  intro c hc
  rw [gddLoop_eq_filterMap] at hc
  obtain ⟨a, ha, hfa⟩ := List.mem_filterMap.mp hc
  unfold fetchOne at hfa
  by_cases hnull : a.package = .vnull ∨ a.version = .vnull
  · rw [if_pos hnull] at hfa; cases hfa
  · rw [if_neg hnull] at hfa
    exact hg eco a.package a.version c hfa

theorem merge_ok (csl : Val) (rep : ManifestData)
    (h : isVdict rep.user_stack_info.license_analysis = true) :
    ∃ rep2, mergeCurrentStackLicense csl rep = .ok rep2 := by
  obtain ⟨d, hd⟩ := (isVdict_iff _).mp h
  refine ⟨{ rep with user_stack_info := { rep.user_stack_info with
      license_analysis := .vdict (dictUpdate d "current_stack_license" csl) } }, ?_⟩
  simp [mergeCurrentStackLicense, hd]

theorem executeStep_ok_total (g : String → Val → Val → GraphOutcome)
    (lic : List LicenseScoringInput → Option Val) (csl : Val) (persist : Bool)
    (acc : List ManifestData) (entry : BatchEntry)
    (hg : wfGraph g) (hlic : ∀ lsl, licRespOK (lic lsl) = true)
    (hentry : entry.resolved.all
        (fun d => pyHashable d.package && pyHashable d.version) = true) :
    ∃ acc2, executeStep g lic csl persist acc entry = .ok acc2 := by
  obtain ⟨rep, hagg, hvd⟩ := aggregate_ok_total lic
      ⟨gddLoop g entry.ecosystem entry.resolved⟩ entry.manifest_file
      (pyLower entry.ecosystem) entry.resolved entry.manifest_file_path persist
      (gddLoop_wf g hg entry.ecosystem entry.resolved) hlic hentry
  obtain ⟨rep2, hmerge⟩ := merge_ok csl rep hvd
  refine ⟨acc ++ [rep2], ?_⟩
  simp [executeStep, get_dependency_data, hagg, hmerge]

theorem executeFold_ok (g : String → Val → Val → GraphOutcome)
    (lic : List LicenseScoringInput → Option Val) (csl : Val) (persist : Bool)
    (entries : List BatchEntry)
    (hg : wfGraph g) (hlic : ∀ lsl, licRespOK (lic lsl) = true)
    (hb : ∀ e ∈ entries, e.resolved.all
        (fun d => pyHashable d.package && pyHashable d.version) = true) :
    ∀ acc, ∃ sd, foldlME (executeStep g lic csl persist) acc entries = .ok sd := by
  induction entries with
  | nil => exact fun acc => ⟨acc, rfl⟩
  | cons e rest ih =>
      intro acc
      obtain ⟨acc2, hstep⟩ := executeStep_ok_total g lic csl persist acc e hg hlic
        (hb e (List.mem_cons_self e rest))
      obtain ⟨sd, hfold⟩ := ih (fun x hx => hb x (List.mem_cons_of_mem e hx)) acc2
      exact ⟨sd, by simp [foldlME, hstep, hfold]⟩

/-- C7 (amended): for every batch whose fetched metadata records are
well-formed, whose license-service responses respect the data contract, and
whose current-stack-license hint is a mapping, `StackAggregator.execute`
always returns a result envelope carrying a status tag — the success tag
with the computed report, or the storage-error tag with the error message —
and never raises; a malformed license-service response (a conflict entry
with a key count other than 2), by contrast, escapes the boundary as an
AssertionError (see the counterexample). -/
theorem c7_execute_envelope (g : String → Val → Val → GraphOutcome)
    (lic : List LicenseScoringInput → Option Val) (db : Except String Unit)
    (t0 t1 : String) (aggregated : Batch) (persist : Bool)
    (hg : wfGraph g)
    (hlic : ∀ lsl, licRespOK (lic lsl) = true)
    (hbatch : ∀ e ∈ aggregated.result, e.resolved.all
        (fun d => pyHashable d.package && pyHashable d.version) = true)
    (hcsl : isVdict aggregated.current_stack_license = true) :
    ∃ sd : List ManifestData,
      (persist = true → db = .ok () →
        StackAggregator.execute g lic db t0 t1 aggregated persist
          = .ok (.success aggregated.external_request_id
              ⟨sd, ⟨t0, t1, "v1"⟩, "None:None:None"⟩))
      ∧ (∀ msg, persist = true → db = .error msg →
          StackAggregator.execute g lic db t0 t1 aggregated persist
            = .ok (.databaseError aggregated.external_request_id msg))
      ∧ (persist = false →
          StackAggregator.execute g lic db t0 t1 aggregated persist
            = .ok (.success aggregated.external_request_id
                ⟨sd, ⟨t0, t1, "v1"⟩, "None:None:None"⟩)) := by
  obtain ⟨cslv, hcslv⟩ := (isVdict_iff _).mp hcsl
  obtain ⟨sd, hsd⟩ := executeFold_ok g lic (getD cslv "1" (.vdict [])) persist
    aggregated.result hg hlic hbatch []
  refine ⟨sd, ?_, ?_, ?_⟩
  · intro hp hdb
    subst hp hdb
    simp [StackAggregator.execute, hcslv, hsd]
  · intro msg hp hdb
    subst hp hdb
    simp [StackAggregator.execute, hcslv, hsd]
  · intro hp
    subst hp
    simp [StackAggregator.execute, hcslv, hsd]

/-- C7 counterexample: a malformed license-service response — one
`conflict_packages` entry carrying a single key — trips the assert inside
`_extract_conflict_packages`, and the AssertionError propagates out of
`execute`: no result envelope is returned. -/
theorem c7_counterexample :
    StackAggregator.execute gWitness
      (fun _ => some (.vdict [("conflict_packages",
        .vlist [.vdict [("p", .vstr "MIT")]])]))
      (.ok ()) "t0" "t1" ⟨.vstr "id", .vdict [], [⟨[], "PyPI", "m", "/m"⟩]⟩ true
      = .error .assertionError := by
  decide

/-- Witness for C7: a storage failure surfaces as the database-error
envelope, not as an exception. -/
theorem c7_execute_envelope_witness :
    StackAggregator.execute gWitness (fun _ => some (.vdict [])) (.error "boom")
      "t0" "t1" ⟨.vstr "id", .vdict [], [⟨[⟨.vstr "a", .vstr "1"⟩], "PyPI", "m", "/m"⟩]⟩ true
      = .ok (.databaseError (.vstr "id") "boom") := by
  obtain ⟨sd, h1, h2, h3⟩ := c7_execute_envelope gWitness (fun _ => some (.vdict []))
    (.error "boom") "t0" "t1"
    ⟨.vstr "id", .vdict [], [⟨[⟨.vstr "a", .vstr "1"⟩], "PyPI", "m", "/m"⟩]⟩ true
    (by
      intro eco p v r h
      by_cases hp : p = .vstr "bad"
      · simp [gWitness, hp, graphResultRecord] at h
      · simp only [gWitness, if_neg hp] at h
        rw [show graphResultRecord (.response 200 (.vdict [("result",
            .vdict [("data", .vlist [.vdict []])])]))
            = some (.vdict [("data", .vlist [.vdict []])]) from by decide] at h
        cases h
        decide)
    (fun lsl => by show licRespOK (some (.vdict [])) = true; decide)
    (by decide)
    (by decide)
  exact h2 "boom" rfl rfl

/-! ## Claim C8: the effect of the persist flag -/

/-- Strip the license-analysis-derived content from a user-stack record:
the per-dependency attachments, the conflict flag and the analysis record. -/
def stripLicenseInfo (u : UserStackInfo) : UserStackInfo :=
  { u with analyzed_dependencies := u.analyzed_dependencies.map stripLA
           stack_license_conflict := .vnull
           license_analysis := .vnull }

/-- Strip the license-analysis-derived content from a manifest report. -/
def stripManifest (m : ManifestData) : ManifestData :=
  { m with user_stack_info := stripLicenseInfo m.user_stack_info }

theorem mapME_strip {f : ComponentSummary → Except PyErr ComponentSummary}
    (hf : ∀ d y, f d = .ok y → stripLA y = stripLA d) :
    ∀ ds ds2, mapME f ds = .ok ds2 → ds2.map stripLA = ds.map stripLA := by
  intro ds
  induction ds with
  | nil => intro ds2 h; cases h; rfl
  | cons a as ih =>
      intro ds2 h
      unfold mapME at h
      cases hfa : f a with
      | error e => rw [hfa] at h; simp at h
      | ok y =>
          rw [hfa] at h
          simp only [except_bind_ok] at h
          cases hrec : mapME f as with
          | error e => rw [hrec] at h; simp at h
          | ok ys =>
              rw [hrec] at h
              simp only [except_bind_ok] at h
              cases h
              simp [hf a y hfa, ih ys hrec]

theorem attach_elem_strip (comp : Val) (dep y : ComponentSummary)
    (h : (do
      let p ← vgetE comp "package" (.vstr "")
      let v ← vgetE comp "version" (.vstr "")
      if dep.name = p ∧ dep.version = v then do
        let la ← vgetE comp "license_analysis" (.vdict [])
        pure { dep with license_analysis := some la }
      else
        pure dep) = Except.ok y) : stripLA y = stripLA dep := by
  cases hp : vgetE comp "package" (.vstr "") with
  | error e => rw [hp] at h; simp at h
  | ok p =>
      rw [hp] at h
      simp only [except_bind_ok] at h
      cases hv : vgetE comp "version" (.vstr "") with
      | error e => rw [hv] at h; simp at h
      | ok v =>
          rw [hv] at h
          simp only [except_bind_ok] at h
          by_cases hmatch : dep.name = p ∧ dep.version = v
          · rw [if_pos hmatch] at h
            cases hla : vgetE comp "license_analysis" (.vdict []) with
            | error e => rw [hla] at h; simp at h
            | ok la =>
                rw [hla] at h
                simp only [except_bind_ok, except_pure_eq] at h
                cases h
                simp [stripLA]
          · rw [if_neg hmatch] at h
            simp only [except_pure_eq] at h
            cases h
            rfl

theorem attach_strip_of_ok (comp : Val) (ds ds2 : List ComponentSummary)
    (h : attachLicenseAnalysis comp ds = .ok ds2) :
    ds2.map stripLA = ds.map stripLA := by
  unfold attachLicenseAnalysis at h
  exact mapME_strip (fun d y hy => attach_elem_strip comp d y hy) ds ds2 h

theorem attachFold_strip_of_ok (comps : List Val) :
    ∀ ds ds2, foldlME (fun ds c => attachLicenseAnalysis c ds) ds comps = .ok ds2 →
      ds2.map stripLA = ds.map stripLA := by
  induction comps with
  | nil => intro ds ds2 h; cases h; rfl
  | cons c rest ih =>
      intro ds ds2 h
      unfold foldlME at h
      cases hone : attachLicenseAnalysis c ds with
      | error e => rw [hone] at h; simp at h
      | ok ds1 =>
          rw [hone] at h
          simp only [except_bind_ok] at h
          rw [ih ds1 ds2 h]
          exact attach_strip_of_ok c ds ds1 hone

/-- A successful `perform_license_analysis` only changes the attached
`license_analysis` fields of the dependency list. -/
theorem perform_strip_of_ok (lic : List LicenseScoringInput → Option Val)
    (lsl : List LicenseScoringInput) (ds : List ComponentSummary)
    (la : LicenseAnalysisOut) (ds2 : List ComponentSummary)
    (h : perform_license_analysis lic lsl ds = .ok (la, ds2)) :
    ds2.map stripLA = ds.map stripLA := by
  unfold perform_license_analysis at h
  cases hl : lic lsl with
  | none =>
      rw [hl] at h
      simp only at h
      cases h
      rfl
  | some v =>
      rw [hl] at h
      simp only at h
      cases hpk : vgetE v "packages" (.vlist []) with
      | error e => rw [hpk] at h; simp at h
      | ok pv =>
          rw [hpk] at h
          simp only [except_bind_ok] at h
          cases hit : pyIterE pv with
          | error e => rw [hit] at h; simp at h
          | ok comps =>
              rw [hit] at h
              simp only [except_bind_ok] at h
              cases hfold : foldlME (fun ds c => attachLicenseAnalysis c ds) ds comps with
              | error e => rw [hfold] at h; simp at h
              | ok dsf =>
                  rw [hfold] at h
                  simp only [except_bind_ok] at h
                  cases hsl : vgetE v "stack_license" .vnull with
                  | error e => rw [hsl] at h; simp at h
                  | ok slv =>
                      rw [hsl] at h
                      simp only [except_bind_ok] at h
                      cases hst : vgetE v "status" .vnull with
                      | error e => rw [hst] at h; simp at h
                      | ok stv =>
                          rw [hst] at h
                          simp only [except_bind_ok] at h
                          cases hu : _extract_unknown_licenses v with
                          | error e => rw [hu] at h; simp at h
                          | ok uv =>
                              rw [hu] at h
                              simp only [except_bind_ok] at h
                              cases hcp : _extract_conflict_packages v with
                              | error e => rw [hcp] at h; simp at h
                              | ok cpv =>
                                  rw [hcp] at h
                                  simp only [except_bind_ok] at h
                                  cases ho : _extract_license_outliers v with
                                  | error e => rw [ho] at h; simp at h
                                  | ok ov =>
                                      rw [ho] at h
                                      simp only [except_bind_ok] at h
                                      simp only [Except.ok.injEq, Prod.mk.injEq] at h
                                      obtain ⟨hla2, hds⟩ := h
                                      rw [← hds]
                                      exact attachFold_strip_of_ok comps ds dsf hfold

theorem unknownDepsOf_congr (deps : List ResolvedDep)
    (ds1 ds2 : List ComponentSummary)
    (h : ds1.map (fun s => (s.name, s.version)) = ds2.map (fun s => (s.name, s.version))) :
    unknownDepsOf deps ds1 = unknownDepsOf deps ds2 := by
  unfold unknownDepsOf
  rw [h]

/-- The persist flag changes a manifest report only in its
license-analysis-derived content. -/
theorem aggregate_strip (lic : List LicenseScoringInput → Option Val)
    (stack : GDRes) (mf eco : String) (deps : List ResolvedDep) (path : String)
    (rep1 rep2 : ManifestData)
    (h1 : aggregate_stack_data lic stack mf eco deps path false = .ok rep1)
    (h2 : aggregate_stack_data lic stack mf eco deps path true = .ok rep2) :
    stripManifest rep1 = stripManifest rep2 := by
  obtain ⟨d0, lics, lsl, la_v, conflict_v, ds, hacc, hbr, hrep⟩ :=
    aggregate_ok_inv lic stack mf eco deps path false rep1 h1
  rcases hbr with ⟨hx, _⟩ | ⟨_, hla, hconf, hds⟩
  · exact absurd hx (by simp)
  obtain ⟨d0b, licsb, lslb, la_vb, conflict_vb, dsb, haccb, hbrb, hrepb⟩ :=
    aggregate_ok_inv lic stack mf eco deps path true rep2 h2
  rcases hbrb with ⟨_, lab, hperfb, hlab, hconfb⟩ | ⟨hx, _⟩
  swap
  · exact absurd hx (by simp)
  have hinj := hacc.symm.trans haccb
  simp only [Except.ok.injEq, Prod.mk.injEq] at hinj
  obtain ⟨hd0, hlics, hlsl⟩ := hinj
  have hstrip : dsb.map stripLA = ds.map stripLA := by
    rw [perform_strip_of_ok lic lslb d0b lab dsb hperfb, ← hd0, ← hds]
  have hpairs : dsb.map (fun s => (s.name, s.version))
      = ds.map (fun s => (s.name, s.version)) := pairs_of_strip dsb ds hstrip
  have hlen : dsb.length = ds.length := by
    have := congrArg List.length hstrip
    simpa using this
  rw [hrep, hrepb, hla, hconf, hlab, hconfb, ← hlics]
  simp only [stripManifest, stripLicenseInfo, assembleReport]
  rw [hstrip, hlen, unknownDepsOf_congr deps dsb ds hpairs]

theorem merge_strip (csl : Val) (rep rep2 : ManifestData)
    (h : mergeCurrentStackLicense csl rep = .ok rep2) :
    stripManifest rep2 = stripManifest rep := by
  unfold mergeCurrentStackLicense at h
  cases hla : rep.user_stack_info.license_analysis with
  | vdict d =>
      rw [hla] at h
      simp only at h
      cases h
      simp [stripManifest, stripLicenseInfo]
  | vnull => rw [hla] at h; simp at h
  | vbool b => rw [hla] at h; simp at h
  | vint n => rw [hla] at h; simp at h
  | vstr s => rw [hla] at h; simp at h
  | vlist l => rw [hla] at h; simp at h

theorem executeFold_strip (g : String → Val → Val → GraphOutcome)
    (lic : List LicenseScoringInput → Option Val) (csl : Val)
    (entries : List BatchEntry) :
    ∀ acc1 acc2 sd1 sd2,
      acc1.map stripManifest = acc2.map stripManifest →
      foldlME (executeStep g lic csl false) acc1 entries = .ok sd1 →
      foldlME (executeStep g lic csl true) acc2 entries = .ok sd2 →
      sd1.map stripManifest = sd2.map stripManifest := by
  induction entries with
  | nil =>
      intro acc1 acc2 sd1 sd2 hacc h1 h2
      cases h1; cases h2
      exact hacc
  | cons e rest ih =>
      intro acc1 acc2 sd1 sd2 hacc h1 h2
      unfold foldlME at h1 h2
      unfold executeStep at h1 h2
      simp only [get_dependency_data] at h1 h2
      cases hag1 : aggregate_stack_data lic ⟨gddLoop g e.ecosystem e.resolved⟩
          e.manifest_file (pyLower e.ecosystem) e.resolved e.manifest_file_path false with
      | error err => rw [hag1] at h1; simp at h1
      | ok o1 =>
          rw [hag1] at h1
          simp only [except_bind_ok] at h1
          cases hag2 : aggregate_stack_data lic ⟨gddLoop g e.ecosystem e.resolved⟩
              e.manifest_file (pyLower e.ecosystem) e.resolved e.manifest_file_path true with
          | error err => rw [hag2] at h2; simp at h2
          | ok o2 =>
              rw [hag2] at h2
              simp only [except_bind_ok] at h2
              cases hm1 : mergeCurrentStackLicense csl o1 with
              | error err => rw [hm1] at h1; simp at h1
              | ok o1m =>
                  rw [hm1] at h1
                  simp only [except_bind_ok] at h1
                  cases hm2 : mergeCurrentStackLicense csl o2 with
                  | error err => rw [hm2] at h2; simp at h2
                  | ok o2m =>
                      rw [hm2] at h2
                      simp only [except_bind_ok] at h2
                      refine ih (acc1 ++ [o1m]) (acc2 ++ [o2m]) sd1 sd2 ?_ h1 h2
                      simp only [List.map_append, List.map_cons, List.map_nil]
                      rw [hacc]
                      have : stripManifest o1m = stripManifest o2m := by
                        rw [merge_strip csl o1 o1m hm1, merge_strip csl o2 o2m hm2]
                        exact aggregate_strip lic ⟨gddLoop g e.ecosystem e.resolved⟩
                          e.manifest_file (pyLower e.ecosystem) e.resolved
                          e.manifest_file_path o1 o2 hag1 hag2
                      rw [this]

/-- C8 (amended): running `execute` twice on identical input with identical
oracles and timestamps, once with `persist = false` and once with
`persist = true`, yields success envelopes with the same request id, audit
and release marker, whose `user_stack_info` contents agree except for the
license-analysis-derived fields — `stack_license_conflict`,
`license_analysis`, and the per-dependency `license_analysis` attachments —
which only the persisted run populates. -/
theorem c8_persist_effect (g : String → Val → Val → GraphOutcome)
    (lic : List LicenseScoringInput → Option Val) (db : Except String Unit)
    (t0 t1 : String) (aggregated : Batch) (erid1 erid2 : Val)
    (sd1 sd2 : StackData)
    (h1 : StackAggregator.execute g lic db t0 t1 aggregated false
        = .ok (.success erid1 sd1))
    (h2 : StackAggregator.execute g lic db t0 t1 aggregated true
        = .ok (.success erid2 sd2)) :
    erid1 = erid2
    ∧ sd1.audit = sd2.audit
    ∧ sd1.release = sd2.release
    ∧ sd1.stack_data.map stripManifest = sd2.stack_data.map stripManifest := by
  unfold StackAggregator.execute at h1 h2
  cases hc : vgetE aggregated.current_stack_license "1" (.vdict []) with
  | error e => rw [hc] at h1; simp at h1
  | ok csl =>
      rw [hc] at h1 h2
      simp only [except_bind_ok] at h1 h2
      cases hf1 : foldlME (executeStep g lic csl false) [] aggregated.result with
      | error e => rw [hf1] at h1; simp at h1
      | ok l1 =>
          rw [hf1] at h1
          simp only [except_bind_ok] at h1
          cases hf2 : foldlME (executeStep g lic csl true) [] aggregated.result with
          | error e => rw [hf2] at h2; simp at h2
          | ok l2 =>
              rw [hf2] at h2
              simp only [except_bind_ok] at h2
              simp only [Bool.false_eq_true, if_false, Except.ok.injEq,
                         ExecOut.success.injEq] at h1
              obtain ⟨herid1, hsd1⟩ := h1
              rw [if_pos trivial] at h2
              cases db with
              | error msg => simp at h2
              | ok u =>
                  simp only [Except.ok.injEq, ExecOut.success.injEq] at h2
                  obtain ⟨herid2, hsd2⟩ := h2
                  subst herid1 herid2 hsd1 hsd2
                  exact ⟨rfl, rfl, rfl,
                    executeFold_strip g lic csl aggregated.result [] [] l1 l2 rfl hf1 hf2⟩

/-- Projection of the per-manifest `user_stack_info` lists of a successful
run. -/
def usisOf : Except PyErr ExecOut → Option (List UserStackInfo)
  | .ok (.success _ sd) => some (sd.stack_data.map (fun m => m.user_stack_info))
  | _ => none

/-- C8 counterexample: with identical input, identical oracle responses and
identical timestamps, the dry run and the persisted run both succeed yet
produce different `user_stack_info` content — the persisted run fills
`stack_license_conflict` and `license_analysis` — so the results do not
agree up to audit timestamps and storage-outcome tag alone. -/
theorem c8_counterexample :
    usisOf (StackAggregator.execute gWitness (fun _ => some (.vdict [])) (.ok ())
        "t0" "t1" ⟨.vstr "id", .vdict [], [⟨[], "PyPI", "m", "/m"⟩]⟩ false)
      ≠ usisOf (StackAggregator.execute gWitness (fun _ => some (.vdict [])) (.ok ())
        "t0" "t1" ⟨.vstr "id", .vdict [], [⟨[], "PyPI", "m", "/m"⟩]⟩ true)
    ∧ (usisOf (StackAggregator.execute gWitness (fun _ => some (.vdict [])) (.ok ())
        "t0" "t1" ⟨.vstr "id", .vdict [], [⟨[], "PyPI", "m", "/m"⟩]⟩ false)).isSome = true
    ∧ (usisOf (StackAggregator.execute gWitness (fun _ => some (.vdict [])) (.ok ())
        "t0" "t1" ⟨.vstr "id", .vdict [], [⟨[], "PyPI", "m", "/m"⟩]⟩ true)).isSome = true := by
  decide

/-- The dry-run manifest report of the C8 witness. -/
def c8Rep1 : ManifestData :=
  { manifest_name := "m"
    manifest_file_path := "/m"
    user_stack_info := {
      ecosystem := "pypi"
      analyzed_dependencies_count := 0
      analyzed_dependencies := []
      unknown_dependencies := []
      unknown_dependencies_count := 0
      recommendation_ready := true
      total_licenses := 0
      distinct_licenses := []
      stack_license_conflict := .vnull
      dependencies := []
      license_analysis := .vdict [("current_stack_license", .vdict [])] } }

/-- The persisted-run manifest report of the C8 witness. -/
def c8Rep2 : ManifestData :=
  { manifest_name := "m"
    manifest_file_path := "/m"
    user_stack_info := {
      ecosystem := "pypi"
      analyzed_dependencies_count := 0
      analyzed_dependencies := []
      unknown_dependencies := []
      unknown_dependencies_count := 0
      recommendation_ready := true
      total_licenses := 0
      distinct_licenses := []
      stack_license_conflict := .vbool true
      dependencies := []
      license_analysis := .vdict [("status", .vnull),
        ("f8a_stack_licenses", .vlist []), ("unknown_licenses", .vlist []),
        ("conflict_packages", .vlist []), ("outlier_packages", .vlist []),
        ("current_stack_license", .vdict [])] } }

/-- Witness for C8 at a concrete pair of runs. -/
theorem c8_persist_effect_witness :
    StackAggregator.execute gWitness (fun _ => some (.vdict [])) (.ok ()) "t0" "t1"
        ⟨.vstr "id", .vdict [], [⟨[], "PyPI", "m", "/m"⟩]⟩ false
      = .ok (.success (.vstr "id") ⟨[c8Rep1], ⟨"t0", "t1", "v1"⟩, "None:None:None"⟩)
    ∧ StackAggregator.execute gWitness (fun _ => some (.vdict [])) (.ok ()) "t0" "t1"
        ⟨.vstr "id", .vdict [], [⟨[], "PyPI", "m", "/m"⟩]⟩ true
      = .ok (.success (.vstr "id") ⟨[c8Rep2], ⟨"t0", "t1", "v1"⟩, "None:None:None"⟩)
    ∧ [c8Rep1].map stripManifest = [c8Rep2].map stripManifest := by
  have h1 : StackAggregator.execute gWitness (fun _ => some (.vdict [])) (.ok ()) "t0" "t1"
      ⟨.vstr "id", .vdict [], [⟨[], "PyPI", "m", "/m"⟩]⟩ false
      = .ok (.success (.vstr "id") ⟨[c8Rep1], ⟨"t0", "t1", "v1"⟩, "None:None:None"⟩) := by
    decide
  have h2 : StackAggregator.execute gWitness (fun _ => some (.vdict [])) (.ok ()) "t0" "t1"
      ⟨.vstr "id", .vdict [], [⟨[], "PyPI", "m", "/m"⟩]⟩ true
      = .ok (.success (.vstr "id") ⟨[c8Rep2], ⟨"t0", "t1", "v1"⟩, "None:None:None"⟩) := by
    decide
  exact ⟨h1, h2, (c8_persist_effect gWitness (fun _ => some (.vdict [])) (.ok ())
    "t0" "t1" ⟨.vstr "id", .vdict [], [⟨[], "PyPI", "m", "/m"⟩]⟩ (.vstr "id") (.vstr "id")
    ⟨[c8Rep1], ⟨"t0", "t1", "v1"⟩, "None:None:None"⟩
    ⟨[c8Rep2], ⟨"t0", "t1", "v1"⟩, "None:None:None"⟩ h1 h2).2.2.2⟩

end StackAgg
